import Mathlib

/-!
Verification development for the streaming transport core of a browser chat
client (`useSSEStream.ts` and `apiClient.ts`).  Text is modelled as `List Char`
(JS strings), bytes as `List Nat`, and the platform primitives (TextDecoder,
fetch, localStorage) as explicit state / oracles.
-/

namespace Scoop

/-- JS strings are modelled as lists of characters. -/
abbrev Str := List Char

/-- Model of JS `String.prototype.startsWith`: `strStarts p s` is true when
`p` is an initial segment of `s`. -/
def strStarts : Str → Str → Bool
  | [], _ => true
  | _ :: _, [] => false
  | p :: ps, s :: ss => p = s && strStarts ps ss

/-- Model of JS `String.prototype.includes`: `containsSub pat s` is true when `pat` occurs as a contiguous substring
of `s` (model of JS `String.prototype.includes`). -/
def containsSub (pat : Str) : Str → Bool
  | [] => strStarts pat []
  | s :: ss => strStarts pat (s :: ss) || containsSub pat ss

/-- Prepend a character to the first piece of a split result (helper for the
split functions below). -/
def consHead (c : Char) : List Str → List Str
  | [] => [[c]]
  | p :: ps => (c :: p) :: ps

/-- Model of JS `buffer.split('\n\n')`: leftmost-first scanning for the
two-character frame delimiter, as performed at `useSSEStream.ts:228`. -/
def splitNN : Str → List Str
  | [] => [[]]
  | [c] => [[c]]
  | c :: d :: cs =>
    if c = '\n' ∧ d = '\n' then [] :: splitNN cs
    else consHead c (splitNN (d :: cs))

/-- Model of JS `eventString.split('\n')` (single-character separator), as
performed at `useSSEStream.ts:83`. -/
def splitNL : Str → List Str
  | [] => [[]]
  | c :: cs => if c = '\n' then [] :: splitNL cs else consHead c (splitNL cs)

/-- JS whitespace test for the characters relevant here (model of the
character class consumed by `String.prototype.trim`). -/
def isJsWS (c : Char) : Bool :=
  c = ' ' || c = '\n' || c = '\t' || c = '\r'

/-- Model of JS `String.prototype.trim`. -/
def trimStr (s : Str) : Str :=
  ((s.dropWhile isJsWS).reverse.dropWhile isJsWS).reverse

/-- The `"event: "` line label used by `parseSSEEvent`. -/
def eventLabel : Str := "event: ".toList

/-- The `"data: "` line label used by `parseSSEEvent`. -/
def dataLabel : Str := "data: ".toList

/-- The `'unknown'` sentinel type (`useSSEStream.ts:92`). -/
def unknownType : Str := "unknown".toList

/-- A decoded SSE frame `{type, data}` (the `EventFrame` of the data model).
`J` is the type of parsed JSON values. -/
structure Frame (J : Type) where
  type : Str
  data : J
deriving DecidableEq, Repr

/-- Model of `parseSSEEvent` (`useSSEStream.ts:82-97`), parameterised by the
JSON parser `jparse` (models `JSON.parse`, `none` = the parse throws) and by
`jtype` (models reading `data.type` when it is a string; `none` = absent or
not a string).  The split on `'\n'`, the `find` of the first `event: ` /
`data: ` lines, the `slice(6)` / `slice(7).trim()` and the
`data.type || 'unknown'` fallback follow the source line by line. -/
def parseSSEEvent {J : Type} (jparse : Str → Option J) (jtype : J → Option Str)
    (eventString : Str) : Option (Frame J) :=
  let lines := splitNL eventString
  let eventLine := lines.find? (fun l => strStarts eventLabel l)
  let dataLine := lines.find? (fun l => strStarts dataLabel l)
  match dataLine with
  | none => none
  | some dl =>
    match jparse (dl.drop 6) with
    | none => none
    | some data =>
      let ty : Str :=
        match eventLine with
        | some el => trimStr (el.drop 7)
        | none =>
          match jtype data with
          | some t => if t = [] then unknownType else t
          | none => unknownType
      some ⟨ty, data⟩

-- ===========================================================================
-- TextDecoder model (platform primitive used at `useSSEStream.ts:210-225`):
-- an incremental UTF-8 decoder.  State = the bytes of an incomplete trailing
-- sequence held back by `decode(value, {stream: true})`; the final
-- `decode()` flush emits a replacement character for a truncated sequence.
-- ===========================================================================

/-- Total byte length of the UTF-8 sequence introduced by lead byte `b`
(a stray continuation byte or invalid lead is consumed alone). -/
def utf8Need (b : Nat) : Nat :=
  if b < 0x80 then 1
  else if b < 0xC0 then 1
  else if b < 0xE0 then 2
  else if b < 0xF0 then 3
  else if b < 0xF8 then 4
  else 1

/-- Is `b` a UTF-8 continuation byte (`10xxxxxx`)? -/
def isContByte (b : Nat) : Bool := 0x80 ≤ b && b < 0xC0

/-- The Unicode replacement character emitted for malformed input. -/
def replacementChar : Char := Char.ofNat 0xFFFD

/-- Decode one complete UTF-8 sequence to its code point (malformed
sequences yield the replacement code point). -/
def decodePoint : List Nat → Nat
  | [b] => if b < 0x80 then b else 0xFFFD
  | [b0, b1] =>
    if isContByte b1 then (b0 % 0x20) * 0x40 + b1 % 0x40 else 0xFFFD
  | [b0, b1, b2] =>
    if isContByte b1 && isContByte b2 then
      (b0 % 0x10) * 0x1000 + (b1 % 0x40) * 0x40 + b2 % 0x40
    else 0xFFFD
  | [b0, b1, b2, b3] =>
    if isContByte b1 && isContByte b2 && isContByte b3 then
      (b0 % 0x8) * 0x40000 + (b1 % 0x40) * 0x1000 + (b2 % 0x40) * 0x40 + b3 % 0x40
    else 0xFFFD
  | _ => 0xFFFD

/-- Feed one byte to the streaming decoder: append to the pending sequence,
emit a character when the sequence is complete. -/
def feedByte (pending : List Nat) (b : Nat) : List Char × List Nat :=
  let seq := pending ++ [b]
  match seq with
  | [] => ([], [])
  | b0 :: _ =>
    if seq.length = utf8Need b0 then ([Char.ofNat (decodePoint seq)], [])
    else ([], seq)

/-- Accumulating step for `feedChunk`. -/
def feedStep (acc : List Char × List Nat) (b : Nat) : List Char × List Nat :=
  let r := feedByte acc.2 b
  (acc.1 ++ r.1, r.2)

/-- Model of `decoder.decode(value, {stream: true})`: feed a whole byte
chunk, returning the emitted text and the new pending state. -/
def feedChunk (pending : List Nat) (chunk : List Nat) : List Char × List Nat :=
  chunk.foldl feedStep ([], pending)

/-- Model of the final `decoder.decode()` flush (`useSSEStream.ts:224`). -/
def flushDec (pending : List Nat) : List Char :=
  if pending.isEmpty then [] else [replacementChar]

/-- UTF-8 encoding of one character. -/
def utf8Bytes (c : Char) : List Nat :=
  let n := c.toNat
  if n < 0x80 then [n]
  else if n < 0x800 then [0xC0 + n / 0x40, 0x80 + n % 0x40]
  else if n < 0x10000 then
    [0xE0 + n / 0x1000, 0x80 + (n / 0x40) % 0x40, 0x80 + n % 0x40]
  else
    [0xF0 + n / 0x40000, 0x80 + (n / 0x1000) % 0x40,
     0x80 + (n / 0x40) % 0x40, 0x80 + n % 0x40]

/-- UTF-8 encoding of a string: the valid SSE bodies of claim C1 are exactly
the byte lists of this form. -/
def utf8Encode (s : Str) : List Nat := (s.map utf8Bytes).flatten

-- ===========================================================================
-- The read loop of `streamMessage` (`useSSEStream.ts:210-253`): per chunk,
-- decode and append to the buffer, split on `"\n\n"`, keep the last piece
-- as the new buffer, treat the other pieces as complete frame candidates;
-- at end of stream, flush the decoder and do one final split.
-- ===========================================================================

/-- One iteration of the read loop: state = (decoder pending, buffer), plus
the accumulated list of complete frame candidates. -/
def readStep (st : (List Nat × Str) × List Str) (chunk : List Nat) :
    (List Nat × Str) × List Str :=
  let r := feedChunk st.1.1 chunk
  let parts := splitNN (st.1.2 ++ r.1)
  ((r.2, parts.getLastD []), st.2 ++ parts.dropLast)

/-- The ordered list of complete frame candidates produced by feeding the
chunks through the read loop (the final buffer is dropped when the loop
exits, exactly as in the source). -/
def processChunks (chunks : List (List Nat)) : List Str :=
  let st := chunks.foldl readStep (([], []), [])
  let parts := splitNN (st.1.2 ++ flushDec st.1.1)
  st.2 ++ parts.dropLast

/-- The ordered list of `{type, data}` frames obtained by parsing every
complete candidate with `parseSSEEvent` (claim C1's notion of the frames
yielded by a chunked delivery). -/
def streamFrames {J : Type} (jparse : Str → Option J) (jtype : J → Option Str)
    (chunks : List (List Nat)) : List (Frame J) :=
  (processChunks chunks).filterMap (parseSSEEvent jparse jtype)

/-- The `'done'` event type. -/
def doneType : Str := "done".toList

/-- The frames of one candidate batch that reach `dispatchEvent`: the source
`break`s out of the `for` loop after dispatching a `done`-typed frame
(`useSSEStream.ts:248`), so later frames of the same batch are skipped. -/
def takeThroughDone {J : Type} : List (Frame J) → List (Frame J)
  | [] => []
  | f :: fs => if f.type = doneType then [f] else f :: takeThroughDone fs

/-- One iteration of the read loop, tracking the frames actually dispatched
(`parseSSEEvent` nulls are skipped by `continue`; the `done` break cuts the
batch short). -/
def readStepDisp {J : Type} (jparse : Str → Option J) (jtype : J → Option Str)
    (st : (List Nat × Str) × List (Frame J)) (chunk : List Nat) :
    (List Nat × Str) × List (Frame J) :=
  let r := feedChunk st.1.1 chunk
  let parts := splitNN (st.1.2 ++ r.1)
  ((r.2, parts.getLastD []),
    st.2 ++ takeThroughDone (parts.dropLast.filterMap (parseSSEEvent jparse jtype)))

/-- The ordered list of frames on which `dispatchEvent` is invoked during a
chunked delivery (subject of claim C2). -/
def dispatchedFrames {J : Type} (jparse : Str → Option J)
    (jtype : J → Option Str) (chunks : List (List Nat)) : List (Frame J) :=
  let st := chunks.foldl (readStepDisp jparse jtype) (([], []), [])
  let parts := splitNN (st.1.2 ++ flushDec st.1.1)
  st.2 ++ takeThroughDone (parts.dropLast.filterMap (parseSSEEvent jparse jtype))

-- A Georgian 3-byte character (`ა`, U+10D0) split between bytes 1 and 2.

-- ===========================================================================
-- Event dispatcher (`dispatchEvent`, `useSSEStream.ts:102-172`)
-- ===========================================================================

/-- A quick-reply option `{title, payload}`. -/
structure QuickReply where
  title : Str
  payload : Str
deriving DecidableEq, Repr

/-- One invocation of a handler callback of `SSEEventHandlers`. -/
inductive HandlerCall
  | onText (s : Str)
  | onProducts (s : Str)
  | onTip (s : Str)
  | onThinking (s : Str)
  | onQuickReplies (l : List QuickReply)
  | onDone (sessionId : Option Str)
  | onError (msg : Str)
  | onTruncationWarning (reason : Str)
  | onReconnecting (attempt maxAttempts : Nat)
deriving DecidableEq, Repr

/-- The fields of the JSON `data` object that `dispatchEvent` reads.  `none`
models an absent field; `some []` models an empty string / empty array. -/
structure EventData where
  content : Option Str := none
  text : Option Str := none
  options : Option (List QuickReply) := none
  replies : Option (List QuickReply) := none
  message : Option Str := none
  session_id : Option Str := none
  finish_reason : Option Str := none
deriving DecidableEq, Repr

/-- JS truthiness of an optional string: absent and `""` are falsy. -/
def strTruthy : Option Str → Bool
  | some s => !s.isEmpty
  | none => false

/-- The `[TIP]` opening marker. -/
def openTag : Str := "[TIP]".toList

/-- The `[/TIP]` closing marker. -/
def closeTag : Str := "[/TIP]".toList

/-- Scan for the leftmost occurrence of `[/TIP]` and return the remainder
after it (`none` when the closing marker never occurs).  Helper modelling
the non-greedy `[\s\S]*?\[\/TIP\]` part of the regex at
`useSSEStream.ts:112`. -/
def afterClose : Str → Option Str
  | [] => none
  | c :: rest =>
    if strStarts closeTag (c :: rest) then some ((c :: rest).drop 6)
    else afterClose rest

/-- Fuel-driven worker for `stripTips` (the fuel only serves structural
recursion; `stripTips` always supplies enough). -/
def stripTipsF : Nat → Str → Str
  | 0, s => s
  | _ + 1, [] => []
  | fuel + 1, c :: rest =>
    if strStarts openTag (c :: rest) then
      match afterClose ((c :: rest).drop 5) with
      | some rest' => stripTipsF fuel rest'
      | none => c :: rest
    else c :: stripTipsF fuel rest

/-- Model of `content.replace(/\[TIP\][\s\S]*?\[\/TIP\]/g, '')`
(`useSSEStream.ts:112`): repeatedly delete the leftmost `[TIP]` together
with the shortest span reaching a following `[/TIP]`, resuming after the
deleted block; an unclosed `[TIP]` matches nothing and the remainder is
kept verbatim. -/
def stripTips (s : Str) : Str := stripTipsF s.length s

/-- The wrapping applied by the `tip` case (`useSSEStream.ts:127`). -/
def wrapTip (t : Str) : Str := "\n\n[TIP]\n".toList ++ t ++ "\n[/TIP]".toList

/-- The localized fallback error message (`useSSEStream.ts:157`). -/
def fallbackErrMsg : Str := "დაფიქსირდა შეცდომა. გთხოვთ სცადოთ თავიდან.".toList

/-- The default truncation reason (`useSSEStream.ts:164`). -/
def defaultFinishReason : Str := "MAX_TOKENS".toList

/-- Model of `dispatchEvent` (`useSSEStream.ts:102-172`): returns the handler
invocation it performs (if any) and its boolean return value.  Each branch
follows the source `switch`, including JS truthiness of the guards and the
`||` fallback chains. -/
def dispatchEvent (type : Str) (data : EventData) : Option HandlerCall × Bool :=
  if type = "text".toList then
    match data.content with
    | some c => if c.isEmpty then (none, false) else (some (.onText (stripTips c)), true)
    | none => (none, false)
  else if type = "products".toList then
    (match data.content with
     | some c => if c.isEmpty then none else some (.onProducts ('\n' :: '\n' :: c))
     | none => none,
     true)
  else if type = "tip".toList then
    match (if strTruthy data.text then data.text else data.content) with
    | some t => if t.isEmpty then (none, false) else (some (.onTip (wrapTip t)), true)
    | none => (none, false)
  else if type = "thinking".toList then
    (match data.content with
     | some c => if c.isEmpty then none else some (.onThinking c)
     | none => none,
     true)
  else if type = "quick_replies".toList then
    match (if data.options.isSome then data.options
           else if data.replies.isSome then data.replies else none) with
    | some l => if l.isEmpty then (none, false)
                else (some (.onQuickReplies (l.map (fun qr => ⟨qr.title, qr.payload⟩))), true)
    | none => (none, false)
  else if type = doneType then
    (some (.onDone data.session_id), true)
  else if type = "error".toList then
    (some (.onError
      (if strTruthy data.message then data.message.getD []
       else if strTruthy data.content then data.content.getD []
       else fallbackErrMsg)), true)
  else if type = "truncation_warning".toList then
    (some (.onTruncationWarning
      (if strTruthy data.finish_reason then data.finish_reason.getD []
       else defaultFinishReason)), true)
  else (none, false)

-- ===========================================================================
-- Retry loop of `streamMessage` (`useSSEStream.ts:188-303`).  One attempt
-- is abstracted to its observable outcome: the handler calls it dispatched
-- (via `dispatchEvent`, in arrival order) and whether it completed, raised
-- an `AbortError`, or failed with some other error.  The loop model follows
-- the `for`/`catch` structure of the source statement by statement.
-- ===========================================================================

/-- The constant `RECONNECT_CONFIG.maxAttempts` (`useSSEStream.ts:27`). -/
def maxAttempts : Nat := 3

/-- The constant `RECONNECT_CONFIG.baseDelayMs` (`useSSEStream.ts:28`). -/
def baseDelayMs : Nat := 1000

/-- The constant `RECONNECT_CONFIG.backoffMultiplier` (`useSSEStream.ts:29`). -/
def backoffMultiplier : Nat := 2

/-- The backoff delay computed at `useSSEStream.ts:279`:
`baseDelayMs * backoffMultiplier ^ (attempt - 1)`. -/
def delayFor (attempt : Nat) : Nat := baseDelayMs * backoffMultiplier ^ (attempt - 1)

/-- The kinds of error that can be raised during one attempt.
`httpError s` models the `Error('HTTP ' + status)` thrown at line 202 (its
message starts with `"HTTP "`, and `parseInt(message.slice(5))` recovers
`s`); `noBodyError` models `Error('No response body')` (line 207), whose
message does not start with `"HTTP "`. -/
inductive ErrKind
  | abortError
  | typeError
  | httpError (status : Nat)
  | noBodyError
  | otherError
deriving DecidableEq, Repr

/-- The set `RETRYABLE_HTTP_STATUSES` (`useSSEStream.ts:33`). -/
def RETRYABLE_HTTP_STATUSES : List Nat := [502, 503, 504]

/-- Model of `isRetryableError` (`useSSEStream.ts:39-49`). -/
def isRetryableError : ErrKind → Bool
  | .abortError => false
  | .typeError => true
  | .httpError s => RETRYABLE_HTTP_STATUSES.contains s
  | .noBodyError => false
  | .otherError => false

/-- Observable outcome of one attempt: the handler calls dispatched during
it, and how it ended (`ok` = the read loop ran to completion and `return`
was reached; `aborted` = an `AbortError` was raised while awaiting the
fetch or a body read; `failed e` = any other error `e` was raised). -/
inductive AttemptResult
  | ok (calls : List HandlerCall)
  | aborted (calls : List HandlerCall)
  | failed (calls : List HandlerCall) (e : ErrKind)
deriving DecidableEq, Repr

/-- The handler calls dispatched during an attempt. -/
def traceOf : AttemptResult → List HandlerCall
  | .ok cs => cs
  | .aborted cs => cs
  | .failed cs _ => cs

/-- A schedule fixing, for each attempt number, the attempt's outcome, and
whether the abort signal fires during the backoff wait that follows it
(making `abortableDelay` reject with an `AbortError`). -/
structure Schedule where
  attempts : Nat → AttemptResult
  abortInDelay : Nat → Bool

/-- How the promise returned by `streamMessage` settles. -/
inductive RunOutcome
  | resolved
  | rejected (e : ErrKind)
deriving DecidableEq, Repr

/-- Observable result of one `streamMessage` run: how the promise settled,
every handler call in order, the backoff waits actually completed, and the
number of transport attempts issued. -/
structure RunStats where
  outcome : RunOutcome
  calls : List HandlerCall
  delays : List Nat
  attemptsMade : Nat
deriving DecidableEq, Repr

/-- The retry loop (`useSSEStream.ts:192-298`).  Per attempt: on `ok`,
return (resolve); on an `AbortError`, return (resolve, line 262-265); on
another error: throw it if not retryable (line 268-270) or if the attempt
ceiling is reached (line 273-276), otherwise invoke
`onReconnecting(attempt, maxAttempts)` (line 284), and wait the backoff
delay — resolving silently if the abort signal fires during the wait
(lines 287-296). -/
def runLoop (sched : Schedule) : Nat → Nat → List HandlerCall → List Nat → RunStats
  | 0, attempt, calls, delays => ⟨.resolved, calls, delays, attempt - 1⟩
  | fuel + 1, attempt, calls, delays =>
    match sched.attempts attempt with
    | .ok cs => ⟨.resolved, calls ++ cs, delays, attempt⟩
    | .aborted cs => ⟨.resolved, calls ++ cs, delays, attempt⟩
    | .failed cs e =>
      if isRetryableError e = false then ⟨.rejected e, calls ++ cs, delays, attempt⟩
      else if maxAttempts ≤ attempt then ⟨.rejected e, calls ++ cs, delays, attempt⟩
      else
        let calls' := calls ++ cs ++ [.onReconnecting attempt maxAttempts]
        if sched.abortInDelay attempt then ⟨.resolved, calls', delays, attempt⟩
        else runLoop sched fuel (attempt + 1) calls' (delays ++ [delayFor attempt])

/-- One full `streamMessage` run over a given schedule. -/
def streamRun (sched : Schedule) : RunStats := runLoop sched maxAttempts 1 [] []

-- ===========================================================================
-- Authenticated fetch (`apiClient.ts`): `apiFetch`, `enrollApiKey` and
-- `fetchCsrfToken` modelled over an oracle `w : Nat → MockResp` handing out
-- the transport responses in call order.  Browser storage is the explicit
-- `Store`; the code's `typeof window === 'undefined'` guards are modelled
-- as always in-browser.
-- ===========================================================================

/-- Client-side storage: the API key (`localStorage['scoop_api_key']`), the
CSRF token (`sessionStorage['scoop_csrf_token']`) and the user identifier
(`localStorage['scoop_user_id']`, only read here). -/
structure Store where
  apiKey : Option Str
  csrf : Option Str
  userId : Option Str
deriving DecidableEq, Repr

/-- One transport response.  `errCode` is `error.code` when the body parses
as JSON of that shape (`none` covers both an unparseable body and a missing
code — the source treats both the same via `try`/optional chaining);
`key` is `data.key` of the enrollment endpoint; `csrfTok` is
`data.csrf_token` of the csrf endpoint; `netErr` makes the fetch call
reject. -/
structure MockResp where
  status : Nat
  errCode : Option Str := none
  key : Option Str := none
  csrfTok : Option Str := none
  netErr : Bool := false
deriving DecidableEq, Repr

/-- Which underlying transport call a log entry records. -/
inductive CallKind
  | original
  | enroll
  | csrfFetch
  | retry
deriving DecidableEq, Repr

/-- One underlying transport call with the credential headers it carried. -/
structure CallRec where
  kind : CallKind
  keySent : Option Str
  tokenSent : Option Str
deriving DecidableEq, Repr

/-- Model of `response.ok` (status in 200..299). -/
def respOk (r : MockResp) : Bool := 200 ≤ r.status && r.status < 300

/-- Model of `enrollApiKey` (`apiClient.ts` part_002:269-297): no-op when a
key is already stored; otherwise one POST to the enrollment endpoint,
storing `data.key` on a 2xx response; every failure is swallowed. -/
def enrollApiKey (w : Nat → MockResp) (store : Store) (idx : Nat)
    (log : List CallRec) : Store × Nat × List CallRec :=
  if store.apiKey.isSome then (store, idx, log)
  else
    let r := w idx
    let log := log ++ [⟨.enroll, none, none⟩]
    let idx := idx + 1
    if r.netErr then (store, idx, log)
    else if !respOk r then (store, idx, log)
    else
      match r.key with
      | some k => ({ store with apiKey := some k }, idx, log)
      | none => (store, idx, log)

/-- Model of `fetchCsrfToken` (part_002:240-262): one GET; on a 2xx response
with a `csrf_token` field, store and return the token; otherwise return
`none` without throwing. -/
def fetchCsrfToken (w : Nat → MockResp) (store : Store) (idx : Nat)
    (log : List CallRec) : Option Str × Store × Nat × List CallRec :=
  let r := w idx
  let log := log ++ [⟨.csrfFetch, none, none⟩]
  let idx := idx + 1
  if r.netErr then (none, store, idx, log)
  else if !respOk r then (none, store, idx, log)
  else
    match r.csrfTok with
    | some t => (some t, { store with csrf := some t }, idx, log)
    | none => (none, store, idx, log)

/-- ASCII upper-casing of one character (JS `toUpperCase` on the method
names that occur here). -/
def charUpper (c : Char) : Char :=
  if 'a' ≤ c ∧ c ≤ 'z' then Char.ofNat (c.toNat - 32) else c

/-- JS `String.prototype.toUpperCase` restricted to ASCII. -/
def toUpperStr (s : Str) : Str := s.map charUpper

/-- The set `CSRF_PROTECTED_METHODS` (part_002:197). -/
def CSRF_PROTECTED_METHODS : List Str :=
  ["POST".toList, "PUT".toList, "DELETE".toList, "PATCH".toList]

/-- The `"CSRF_"` error-code marker tested at part_002:431. -/
def csrfCodeMarker : Str := "CSRF_".toList

/-- Result of one `apiFetch` call: the response the promise settles with
(`none` = the promise rejects with the transport's network error), the
final storage state, the number of transport calls issued, and the call
log. -/
structure ApiResult where
  response : Option MockResp
  store : Store
  callCount : Nat
  log : List CallRec
deriving DecidableEq, Repr

/-- Model of `apiFetch` (part_002:309-455): inject the stored key, and the
stored CSRF token on state-changing methods; on a 401, clear a stale key,
re-enroll via the stored user id and retry once with the fresh key (the
retry's response is returned as-is); on a 403 whose error code starts with
`CSRF_` (state-changing methods only), clear the cached token, fetch a
fresh one, and retry once with it; in every other case return the original
response. -/
def apiFetch (w : Nat → MockResp) (method? : Option Str) (store : Store) : ApiResult :=
  let apiKey := store.apiKey
  let m := toUpperStr (method?.getD "GET".toList)
  let isCsrfM := CSRF_PROTECTED_METHODS.contains m
  let tok0 := if isCsrfM then store.csrf else none
  let r := w 0
  let log : List CallRec := [⟨.original, apiKey, tok0⟩]
  if r.netErr then ⟨none, store, 1, log⟩
  else if r.status = 401 ∧ apiKey.isSome then
    let store1 := { store with apiKey := none }
    match store1.userId with
    | some _ =>
      let e := enrollApiKey w store1 1 log
      match e.1.apiKey with
      | some newKey =>
        let tok := if isCsrfM then e.1.csrf else none
        let r2 := w e.2.1
        let log3 := e.2.2 ++ [⟨.retry, some newKey, tok⟩]
        ⟨if r2.netErr then none else some r2, e.1, e.2.1 + 1, log3⟩
      | none => ⟨some r, e.1, e.2.1, e.2.2⟩
    | none => ⟨some r, store1, 1, log⟩
  else if r.status = 401 ∧ apiKey.isNone then
    match store.userId with
    | some _ =>
      let e := enrollApiKey w store 1 log
      match e.1.apiKey with
      | some newKey =>
        let tok := if isCsrfM then e.1.csrf else none
        let r2 := w e.2.1
        let log3 := e.2.2 ++ [⟨.retry, some newKey, tok⟩]
        ⟨if r2.netErr then none else some r2, e.1, e.2.1 + 1, log3⟩
      | none => ⟨some r, e.1, e.2.1, e.2.2⟩
    | none => ⟨some r, store, 1, log⟩
  else if r.status = 403 ∧ isCsrfM then
    match r.errCode with
    | some code =>
      if strStarts csrfCodeMarker code then
        let store1 := { store with csrf := none }
        let f := fetchCsrfToken w store1 1 log
        match f.1 with
        | some t =>
          let r2 := w f.2.2.1
          let log3 := f.2.2.2 ++ [⟨.retry, apiKey, some t⟩]
          ⟨if r2.netErr then none else some r2, f.2.1, f.2.2.1 + 1, log3⟩
        | none => ⟨some r, f.2.1, f.2.2.1, f.2.2.2⟩
      else ⟨some r, store, 1, log⟩
    | none => ⟨some r, store, 1, log⟩
  else ⟨some r, store, 1, log⟩

/-- A three-response oracle (later calls repeat the last response). -/
def oracle3 (r0 r1 r2 : MockResp) : Nat → MockResp
  | 0 => r0
  | 1 => r1
  | _ => r2

-- ===========================================================================
-- Concrete scenarios used by witnesses and counterexamples
-- ===========================================================================

/-- A schedule whose first attempt raises an `AbortError` at once. -/
def abortSched : Schedule := ⟨fun _ => .aborted [], fun _ => false⟩

/-- A schedule whose first attempt fails with `Error('No response body')`. -/
def noBodySched : Schedule := ⟨fun _ => .failed [] .noBodyError, fun _ => false⟩

/-- A schedule built from three fixed attempt outcomes, never aborting. -/
def sched3 (r1 r2 r3 : AttemptResult) : Schedule :=
  ⟨fun i => if i = 1 then r1 else if i = 2 then r2 else r3, fun _ => false⟩

/-- A schedule whose first attempt fails with a network error and whose
backoff wait is then aborted. -/
def abortDelaySched : Schedule :=
  ⟨fun i => if i = 1 then .failed [] .typeError else .ok [], fun _ => true⟩

/-- A schedule whose only attempt succeeds after dispatching an in-band
`error` frame. -/
def errFrameSched : Schedule := ⟨fun _ => .ok [.onError ['x']], fun _ => false⟩

/-- Oracle: 401, then a successful enrollment, then another 401. -/
def w401 : Nat → MockResp :=
  oracle3 { status := 401 } { status := 200, key := some ['k'] } { status := 401 }

/-- Oracle: 401, then a failing enrollment. -/
def w401fail : Nat → MockResp :=
  oracle3 { status := 401 } { status := 500 } { status := 200 }

/-- A store holding a (stale) key and a user identifier. -/
def storeWithUser : Store := ⟨some ['s'], none, some ['u']⟩

/-- A store holding a key but no user identifier. -/
def storeNoUser : Store := ⟨some ['s'], none, none⟩

/-- Oracle: a CSRF-coded 403, then a successful token refresh, then 200. -/
def w403 : Nat → MockResp :=
  oracle3 { status := 403, errCode := some "CSRF_EXPIRED".toList }
    { status := 200, csrfTok := some ['t'] } { status := 200 }

/-- Oracle: a 403 with an unparseable body. -/
def w403noCode : Nat → MockResp :=
  oracle3 { status := 403 } { status := 200 } { status := 200 }

/-- Oracle: a CSRF-coded 403, then a failing token refresh. -/
def w403fail : Nat → MockResp :=
  oracle3 { status := 403, errCode := some "CSRF_EXPIRED".toList }
    { status := 500 } { status := 200 }

/-- A store holding a key and a stale CSRF token. -/
def storeCsrf : Store := ⟨some ['k'], some ['o'], none⟩

/-- A minimal JSON model for concrete runs: only `{}` parses (to `()`). -/
def unitJParse (s : Str) : Option Unit :=
  if s = "\x7b\x7d".toList then some () else none

/-- The `data.type` reader of the minimal JSON model: no `type` field. -/
def unitJType : Unit → Option Str := fun _ => none

/-- A complete frame of type `done`, as one byte chunk. -/
def doneChunk : List Nat := utf8Encode "event: done\ndata: \x7b\x7d\n\n".toList

/-- A complete frame of type `text`, as one byte chunk. -/
def textChunk : List Nat := utf8Encode "event: text\ndata: \x7b\x7d\n\n".toList

/-- The concrete body of the C1 witness: two frames, one carrying a 3-byte
Georgian character. -/
def c1body : Str := "data: ა\n\ndata: b\n\n".toList

-- ===========================================================================
-- Theorems.  First a toolbox of lemmas about the string primitives, then
-- one theorem (plus witness / counterexample) per claim.
-- ===========================================================================

/-- A successful `strStarts p s` implies `p` is no longer than `s`. -/
theorem strStarts_le_length : ∀ p s : Str, strStarts p s = true → p.length ≤ s.length := by
  intro p
  induction p with
  | nil => intro s _; simp
  | cons c cs ih =>
    intro s h
    cases s with
    | nil => simp [strStarts] at h
    | cons d ds =>
      simp only [strStarts, Bool.and_eq_true, decide_eq_true_eq] at h
      have := ih ds h.2
      simp only [List.length_cons]
      omega

/-- Every string starts with itself, whatever follows. -/
theorem strStarts_self_append : ∀ p x : Str, strStarts p (p ++ x) = true := by
  intro p
  induction p with
  | nil => intro x; rfl
  | cons c cs ih => intro x; simp [strStarts, ih]

/-- A head-character mismatch refutes `strStarts`. -/
theorem strStarts_head_ne (p s : Str) (c d : Char) (h : c ≠ d) :
    strStarts (c :: p) (d :: s) = false := by
  simp [strStarts, h]

/-- Evaluating `strStarts` over an append only looks at the first part when that part
is long enough. -/
theorem strStarts_of_append_le : ∀ p t x : Str, strStarts p (t ++ x) = true →
    p.length ≤ t.length → strStarts p t = true := by
  intro p
  induction p with
  | nil => intro t x _ _; rfl
  | cons c cs ih =>
    intro t x h hle
    cases t with
    | nil => simp at hle
    | cons d ds =>
      simp only [List.cons_append, strStarts, Bool.and_eq_true] at h ⊢
      exact ⟨h.1, ih ds x h.2 (by simpa using hle)⟩

/-- A match at the front is in particular a substring occurrence. -/
theorem containsSub_of_strStarts : ∀ p s : Str, strStarts p s = true →
    containsSub p s = true := by
  intro p s h
  cases s with
  | nil => simpa [containsSub] using h
  | cons c cs => simp [containsSub, h]

/-- The scanner `afterClose` strictly shrinks its argument. -/
theorem afterClose_length : ∀ s r : Str, afterClose s = some r → r.length < s.length := by
  intro s
  induction s with
  | nil => intro r h; simp [afterClose] at h
  | cons c rest ih =>
    intro r h
    rw [afterClose] at h
    split at h
    · next hcl =>
      have hlen := strStarts_le_length _ _ hcl
      simp only [Option.some.injEq] at h
      subst h
      simp only [List.length_drop]
      simp only [closeTag, String.toList] at hlen
      simp only [List.length_cons] at hlen ⊢
      omega
    · have := ih r h
      simp only [List.length_cons]
      omega

/-- The helper `consHead` never returns the empty list. -/
theorem consHead_ne_nil (c : Char) (l : List Str) : consHead c l ≠ [] := by
  cases l <;> simp [consHead]

/-- The split `splitNL` never returns the empty list. -/
theorem splitNL_ne_nil : ∀ s : Str, splitNL s ≠ [] := by
  intro s
  cases s with
  | nil => simp [splitNL]
  | cons c cs =>
    rw [splitNL]
    split
    · simp
    · exact consHead_ne_nil _ _

/-- The split `splitNN` never returns the empty list. -/
theorem splitNN_ne_nil : ∀ s : Str, splitNN s ≠ [] := by
  intro s
  match s with
  | [] => simp [splitNN]
  | [c] => simp [splitNN]
  | c :: d :: cs =>
    rw [splitNN]
    split
    · simp
    · exact consHead_ne_nil _ _

/-- The helper `consHead` distributes over an append with a nonempty first part. -/
theorem consHead_append (c : Char) (l1 l2 : List Str) (h : l1 ≠ []) :
    consHead c (l1 ++ l2) = consHead c l1 ++ l2 := by
  cases l1 with
  | nil => exact absurd rfl h
  | cons p ps => simp [consHead]

/-- A newline-free string does not split. -/
theorem splitNL_no_newline : ∀ x : Str, (∀ c ∈ x, c ≠ '\n') → splitNL x = [x] := by
  intro x
  induction x with
  | nil => intro _; rfl
  | cons c cs ih =>
    intro h
    rw [splitNL]
    rw [if_neg (h c (by simp))]
    rw [ih (fun d hd => h d (by simp [hd]))]
    rfl

/-- Appending a full extra line extends the line split by one piece. -/
theorem splitNL_append_line : ∀ a x : Str, (∀ c ∈ x, c ≠ '\n') →
    splitNL (a ++ '\n' :: x) = splitNL a ++ [x] := by
  intro a x hx
  induction a with
  | nil => simp [splitNL, splitNL_no_newline x hx]
  | cons c cs ih =>
    by_cases hc : c = '\n'
    · subst hc
      have h1 : splitNL ('\n' :: (cs ++ '\n' :: x)) = [] :: splitNL (cs ++ '\n' :: x) := by
        rw [splitNL, if_pos rfl]
      have h2 : splitNL ('\n' :: cs) = [] :: splitNL cs := by
        rw [splitNL, if_pos rfl]
      rw [List.cons_append, h1, h2, ih, List.cons_append]
    · have h1 : splitNL (c :: (cs ++ '\n' :: x)) = consHead c (splitNL (cs ++ '\n' :: x)) := by
        rw [splitNL, if_neg hc]
      have h2 : splitNL (c :: cs) = consHead c (splitNL cs) := by
        rw [splitNL, if_neg hc]
      rw [List.cons_append, h1, h2, ih, consHead_append _ _ _ (splitNL_ne_nil cs)]

-- ---------------------------------------------------------------------------
-- C6: missing required content on text / products / tip
-- ---------------------------------------------------------------------------

/-- C6, counterexample: dispatching `products` with no `content` field
invokes no handler, but `dispatchEvent` returns `true`, not `false` as the
claim states (the `products` case of the source returns `true`
unconditionally, `useSSEStream.ts:117-121`). -/
theorem c6_counterexample :
    (dispatchEvent "products".toList {}).1 = none ∧
    (dispatchEvent "products".toList {}).2 = true := by decide

/-- C6, amended: dispatching `text` or `tip` without the required content
field invokes no handler and returns `false`; dispatching `products`
without `content` invokes no handler but returns `true`. -/
theorem c6_missing_content_not_handled :
    (∀ data : EventData, data.content = none →
      dispatchEvent "text".toList data = (none, false)) ∧
    (∀ data : EventData, data.content = none →
      dispatchEvent "products".toList data = (none, true)) ∧
    (∀ data : EventData, data.text = none → data.content = none →
      dispatchEvent "tip".toList data = (none, false)) := by
  refine ⟨fun data h => ?_, fun data h => ?_, fun data ht hc => ?_⟩
  · unfold dispatchEvent
    rw [if_pos rfl, h]
  · unfold dispatchEvent
    rw [if_neg (by decide), if_pos rfl, h]
  · unfold dispatchEvent
    rw [if_neg (by decide), if_neg (by decide), if_pos rfl, ht, hc]
    simp [strTruthy]

/-- C6 witness: the amended statement evaluated at the empty data object. -/
theorem c6_witness :
    dispatchEvent "text".toList {} = (none, false) ∧
    dispatchEvent "products".toList {} = (none, true) ∧
    dispatchEvent "tip".toList {} = (none, false) :=
  ⟨c6_missing_content_not_handled.1 {} rfl,
   c6_missing_content_not_handled.2.1 {} rfl,
   c6_missing_content_not_handled.2.2 {} rfl rfl⟩

-- ---------------------------------------------------------------------------
-- C10: parseSSEEvent reads only the first `data: ` / `event: ` lines
-- ---------------------------------------------------------------------------

/-- C10: a frame candidate with no `data: ` line parses to `null` (even if
it has an `event: ` line), and appending a further `data: ` line to a
candidate that already has one leaves the parse result unchanged (only the
first `data: ` line is read; there is no multi-line data concatenation). -/
theorem c10_first_data_line_only :
    ∀ {J : Type} (jparse : Str → Option J) (jtype : J → Option Str) (es j : Str),
      ((∀ l ∈ splitNL es, strStarts dataLabel l = false) →
        parseSSEEvent jparse jtype es = none) ∧
      ((∃ l ∈ splitNL es, strStarts dataLabel l = true) → (∀ c ∈ j, c ≠ '\n') →
        parseSSEEvent jparse jtype (es ++ '\n' :: (dataLabel ++ j))
          = parseSSEEvent jparse jtype es) := by
  intro J jparse jtype es j
  constructor
  · intro h
    unfold parseSSEEvent
    have : (splitNL es).find? (fun l => strStarts dataLabel l) = none :=
      List.find?_eq_none.2 (fun l hl => by simp [h l hl])
    simp only [this]
  · intro hdata hj
    have hxnl : ∀ c ∈ dataLabel ++ j, c ≠ '\n' := by
      intro c hc
      rcases List.mem_append.1 hc with h | h
      · have hd : dataLabel = ['d', 'a', 't', 'a', ':', ' '] := by decide
        rw [hd] at h
        fin_cases h <;> decide
      · exact hj c h
    have hsplit := splitNL_append_line es (dataLabel ++ j) hxnl
    have hfindD :
        (splitNL (es ++ '\n' :: (dataLabel ++ j))).find? (fun l => strStarts dataLabel l)
          = (splitNL es).find? (fun l => strStarts dataLabel l) := by
      rw [hsplit, List.find?_append]
      obtain ⟨l, hl, hpl⟩ := hdata
      have hs : ((splitNL es).find? (fun l => strStarts dataLabel l)).isSome :=
        List.find?_isSome.2 ⟨l, hl, hpl⟩
      obtain ⟨d, hd⟩ := Option.isSome_iff_exists.1 hs
      rw [hd]
      rfl
    have hxe : strStarts eventLabel (dataLabel ++ j) = false := by
      have he : eventLabel = 'e' :: "vent: ".toList := by decide
      have hd : dataLabel = 'd' :: "ata: ".toList := by decide
      rw [he, hd, List.cons_append]
      exact strStarts_head_ne _ _ _ _ (by decide)
    have hfindE :
        (splitNL (es ++ '\n' :: (dataLabel ++ j))).find? (fun l => strStarts eventLabel l)
          = (splitNL es).find? (fun l => strStarts eventLabel l) := by
      rw [hsplit, List.find?_append]
      have : [dataLabel ++ j].find? (fun l => strStarts eventLabel l) = none := by
        simp [List.find?, hxe]
      rw [this, Option.or_none]
    simp only [parseSSEEvent]
    rw [hfindD, hfindE]
-- ---------------------------------------------------------------------------
-- Step lemmas for the retry loop
-- ---------------------------------------------------------------------------

/-- A completed attempt resolves the run at once. -/
theorem runLoop_step_ok (sched : Schedule) (fuel attempt : Nat)
    (calls : List HandlerCall) (delays : List Nat) (cs : List HandlerCall)
    (hf : 1 ≤ fuel) (h : sched.attempts attempt = .ok cs) :
    runLoop sched fuel attempt calls delays = ⟨.resolved, calls ++ cs, delays, attempt⟩ := by
  cases fuel with
  | zero => omega
  | succ f => simp only [runLoop, h]

/-- An `AbortError` during an attempt resolves the run at once (the source
`return`s at `useSSEStream.ts:264`). -/
theorem runLoop_step_aborted (sched : Schedule) (fuel attempt : Nat)
    (calls : List HandlerCall) (delays : List Nat) (cs : List HandlerCall)
    (hf : 1 ≤ fuel) (h : sched.attempts attempt = .aborted cs) :
    runLoop sched fuel attempt calls delays = ⟨.resolved, calls ++ cs, delays, attempt⟩ := by
  cases fuel with
  | zero => omega
  | succ f => simp only [runLoop, h]

/-- A non-retryable failure rejects the run at once. -/
theorem runLoop_step_nonretry (sched : Schedule) (fuel attempt : Nat)
    (calls : List HandlerCall) (delays : List Nat) (cs : List HandlerCall) (e : ErrKind)
    (hf : 1 ≤ fuel) (h : sched.attempts attempt = .failed cs e)
    (hr : isRetryableError e = false) :
    runLoop sched fuel attempt calls delays = ⟨.rejected e, calls ++ cs, delays, attempt⟩ := by
  cases fuel with
  | zero => omega
  | succ f =>
    simp only [runLoop, h]
    rw [if_pos hr]

/-- A retryable failure at the attempt ceiling rejects the run. -/
theorem runLoop_step_max (sched : Schedule) (fuel attempt : Nat)
    (calls : List HandlerCall) (delays : List Nat) (cs : List HandlerCall) (e : ErrKind)
    (hf : 1 ≤ fuel) (h : sched.attempts attempt = .failed cs e)
    (hr : isRetryableError e = true) (hm : maxAttempts ≤ attempt) :
    runLoop sched fuel attempt calls delays = ⟨.rejected e, calls ++ cs, delays, attempt⟩ := by
  cases fuel with
  | zero => omega
  | succ f =>
    simp only [runLoop, h]
    rw [if_neg (by simp [hr]), if_pos hm]

/-- A retryable failure whose backoff wait is aborted resolves the run,
after `onReconnecting` has fired. -/
theorem runLoop_step_abort_delay (sched : Schedule) (fuel attempt : Nat)
    (calls : List HandlerCall) (delays : List Nat) (cs : List HandlerCall) (e : ErrKind)
    (hf : 1 ≤ fuel) (h : sched.attempts attempt = .failed cs e)
    (hr : isRetryableError e = true) (hm : attempt < maxAttempts)
    (hd : sched.abortInDelay attempt = true) :
    runLoop sched fuel attempt calls delays
      = ⟨.resolved, calls ++ cs ++ [.onReconnecting attempt maxAttempts], delays, attempt⟩ := by
  cases fuel with
  | zero => omega
  | succ f =>
    simp only [runLoop, h]
    rw [if_neg (by simp [hr]), if_neg (by omega), if_pos hd]

/-- A retryable failure below the ceiling loops to the next attempt with
the reconnect notification appended and the backoff delay recorded. -/
theorem runLoop_step_retry (sched : Schedule) (fuel attempt : Nat)
    (calls : List HandlerCall) (delays : List Nat) (cs : List HandlerCall) (e : ErrKind)
    (hf : 1 ≤ fuel) (h : sched.attempts attempt = .failed cs e)
    (hr : isRetryableError e = true) (hm : attempt < maxAttempts)
    (hd : sched.abortInDelay attempt = false) :
    runLoop sched fuel attempt calls delays
      = runLoop sched (fuel - 1) (attempt + 1)
          (calls ++ cs ++ [.onReconnecting attempt maxAttempts])
          (delays ++ [delayFor attempt]) := by
  cases fuel with
  | zero => omega
  | succ f =>
    simp only [runLoop, h]
    rw [if_neg (by simp [hr]), if_neg (by omega), if_neg (by simp [hd])]
    simp

-- ---------------------------------------------------------------------------
-- C5: error classification
-- ---------------------------------------------------------------------------

/-- C5, counterexample: the claim says an `AbortError` "is propagated
immediately as a rejection", but a run whose first attempt raises an
`AbortError` resolves (the source `return`s instead of throwing,
`useSSEStream.ts:262-265`). -/
theorem c5_counterexample :
    (streamRun abortSched).outcome = .resolved ∧
    ∀ e : ErrKind, (streamRun abortSched).outcome ≠ .rejected e := by
  have h : (streamRun abortSched).outcome = .resolved := by decide
  exact ⟨h, fun e => by rw [h]; simp⟩

/-- C5, amended: an error is retried iff it is a network-level `TypeError`
or an `HTTP` error with status 502/503/504; an `AbortError` ends the run
immediately with no further attempts and a resolved (not rejected)
promise; every other error is propagated immediately as a rejection with
no further attempts. -/
theorem c5_error_classification :
    (∀ e : ErrKind, isRetryableError e = true ↔
      (e = .typeError ∨ ∃ s, e = .httpError s ∧ (s = 502 ∨ s = 503 ∨ s = 504))) ∧
    (∀ (sched : Schedule) (fuel attempt : Nat) (calls : List HandlerCall)
      (delays : List Nat) (cs : List HandlerCall) (e : ErrKind),
      1 ≤ fuel → sched.attempts attempt = .failed cs e → isRetryableError e = false →
      runLoop sched fuel attempt calls delays = ⟨.rejected e, calls ++ cs, delays, attempt⟩) ∧
    (∀ (sched : Schedule) (fuel attempt : Nat) (calls : List HandlerCall)
      (delays : List Nat) (cs : List HandlerCall),
      1 ≤ fuel → sched.attempts attempt = .aborted cs →
      runLoop sched fuel attempt calls delays = ⟨.resolved, calls ++ cs, delays, attempt⟩) := by
  refine ⟨fun e => ?_, runLoop_step_nonretry, runLoop_step_aborted⟩
  cases e with
  | abortError => simp [isRetryableError]
  | typeError => simp [isRetryableError]
  | httpError s =>
    simp only [isRetryableError, RETRYABLE_HTTP_STATUSES]
    constructor
    · intro h
      right
      refine ⟨s, rfl, ?_⟩
      simpa using h
    · rintro (h | ⟨s', hs', hc⟩)
      · exact absurd h (by simp)
      · cases hs'
        simpa using hc
  | noBodyError => simp [isRetryableError]
  | otherError => simp [isRetryableError]

/-- C5 witness: the classification at `HTTP 503`, an immediate rejection
for `Error('No response body')`, and an immediate resolution for an
`AbortError`. -/
theorem c5_witness :
    (isRetryableError (.httpError 503) = true ↔
      ((ErrKind.httpError 503) = .typeError ∨
        ∃ s, (ErrKind.httpError 503) = .httpError s ∧ (s = 502 ∨ s = 503 ∨ s = 504))) ∧
    runLoop noBodySched 3 1 [] [] = ⟨.rejected .noBodyError, [], [], 1⟩ ∧
    runLoop abortSched 3 1 [] [] = ⟨.resolved, [], [], 1⟩ :=
  ⟨c5_error_classification.1 _,
   c5_error_classification.2.1 noBodySched 3 1 [] [] [] _ (by omega) rfl (by decide),
   c5_error_classification.2.2 abortSched 3 1 [] [] [] (by omega) rfl⟩

-- ---------------------------------------------------------------------------
-- C4: retry schedule
-- ---------------------------------------------------------------------------

/-- C4: with two retryable failures then a success, `streamMessage` issues 3
transport calls, fires `onReconnecting (1,3)` then `(2,3)` (before attempts
2 and 3), waits 1000 then 2000 ms, and resolves; with three retryable
failures it still fires `onReconnecting` exactly twice (never after the
final attempt) and rejects with the last error; and for a schedule whose
failures are all retryable, a rejection can only arise from all three
attempts failing. -/
theorem c4_retry_schedule :
    (∀ (sched : Schedule) (t1 t2 cs : List HandlerCall) (e1 e2 : ErrKind),
      isRetryableError e1 = true → isRetryableError e2 = true →
      sched.attempts 1 = .failed t1 e1 → sched.attempts 2 = .failed t2 e2 →
      sched.attempts 3 = .ok cs →
      sched.abortInDelay 1 = false → sched.abortInDelay 2 = false →
      streamRun sched = ⟨.resolved,
        t1 ++ [.onReconnecting 1 3] ++ (t2 ++ [.onReconnecting 2 3] ++ cs),
        [1000, 2000], 3⟩) ∧
    (∀ (sched : Schedule) (t1 t2 t3 : List HandlerCall) (e1 e2 e3 : ErrKind),
      isRetryableError e1 = true → isRetryableError e2 = true →
      isRetryableError e3 = true →
      sched.attempts 1 = .failed t1 e1 → sched.attempts 2 = .failed t2 e2 →
      sched.attempts 3 = .failed t3 e3 →
      sched.abortInDelay 1 = false → sched.abortInDelay 2 = false →
      streamRun sched = ⟨.rejected e3,
        t1 ++ [.onReconnecting 1 3] ++ (t2 ++ [.onReconnecting 2 3] ++ t3),
        [1000, 2000], 3⟩) ∧
    (∀ (sched : Schedule) (e : ErrKind),
      (∀ i cs e', sched.attempts i = .failed cs e' → isRetryableError e' = true) →
      (streamRun sched).outcome = .rejected e →
      ∃ cs1 e1 cs2 e2 cs3,
        sched.attempts 1 = .failed cs1 e1 ∧ sched.attempts 2 = .failed cs2 e2 ∧
        sched.attempts 3 = .failed cs3 e ∧ (streamRun sched).attemptsMade = 3) := by
  have hd1 : delayFor 1 = 1000 := by decide
  have hd2 : delayFor 2 = 2000 := by decide
  have hm : maxAttempts = 3 := rfl
  refine ⟨?_, ?_, ?_⟩
  · intro sched t1 t2 cs e1 e2 hr1 hr2 h1 h2 h3 hab1 hab2
    unfold streamRun
    rw [runLoop_step_retry sched maxAttempts 1 [] [] t1 e1 (by decide) h1 hr1
        (by decide) hab1,
      runLoop_step_retry sched (maxAttempts - 1) 2 _ _ t2 e2 (by decide) h2 hr2
        (by decide) hab2,
      runLoop_step_ok sched (maxAttempts - 1 - 1) 3 _ _ cs (by decide) h3]
    simp [hd1, hd2, hm]
  · intro sched t1 t2 t3 e1 e2 e3 hr1 hr2 hr3 h1 h2 h3 hab1 hab2
    unfold streamRun
    rw [runLoop_step_retry sched maxAttempts 1 [] [] t1 e1 (by decide) h1 hr1
        (by decide) hab1,
      runLoop_step_retry sched (maxAttempts - 1) 2 _ _ t2 e2 (by decide) h2 hr2
        (by decide) hab2,
      runLoop_step_max sched (maxAttempts - 1 - 1) 3 _ _ t3 e3 (by decide) h3 hr3
        (by decide)]
    simp [hd1, hd2, hm]
  · intro sched e hall hout
    rcases h1 : sched.attempts 1 with cs1 | cs1 | ⟨cs1, e1⟩
    · unfold streamRun at hout
      rw [runLoop_step_ok sched maxAttempts 1 [] [] cs1 (by decide) h1] at hout
      simp at hout
    · unfold streamRun at hout
      rw [runLoop_step_aborted sched maxAttempts 1 [] [] cs1 (by decide) h1] at hout
      simp at hout
    · have hr1 := hall 1 cs1 e1 h1
      rcases hab1 : sched.abortInDelay 1 with _ | _
      · rcases h2 : sched.attempts 2 with cs2 | cs2 | ⟨cs2, e2⟩
        · unfold streamRun at hout
          rw [runLoop_step_retry sched maxAttempts 1 [] [] cs1 e1 (by decide) h1 hr1
              (by decide) hab1,
            runLoop_step_ok sched (maxAttempts - 1) 2 _ _ cs2 (by decide) h2] at hout
          simp at hout
        · unfold streamRun at hout
          rw [runLoop_step_retry sched maxAttempts 1 [] [] cs1 e1 (by decide) h1 hr1
              (by decide) hab1,
            runLoop_step_aborted sched (maxAttempts - 1) 2 _ _ cs2 (by decide) h2] at hout
          simp at hout
        · have hr2 := hall 2 cs2 e2 h2
          rcases hab2 : sched.abortInDelay 2 with _ | _
          · rcases h3 : sched.attempts 3 with cs3 | cs3 | ⟨cs3, e3⟩
            · unfold streamRun at hout
              rw [runLoop_step_retry sched maxAttempts 1 [] [] cs1 e1 (by decide) h1 hr1
                  (by decide) hab1,
                runLoop_step_retry sched (maxAttempts - 1) 2 _ _ cs2 e2 (by decide) h2 hr2
                  (by decide) hab2,
                runLoop_step_ok sched (maxAttempts - 1 - 1) 3 _ _ cs3 (by decide) h3] at hout
              simp at hout
            · unfold streamRun at hout
              rw [runLoop_step_retry sched maxAttempts 1 [] [] cs1 e1 (by decide) h1 hr1
                  (by decide) hab1,
                runLoop_step_retry sched (maxAttempts - 1) 2 _ _ cs2 e2 (by decide) h2 hr2
                  (by decide) hab2,
                runLoop_step_aborted sched (maxAttempts - 1 - 1) 3 _ _ cs3 (by decide)
                  h3] at hout
              simp at hout
            · have hr3 := hall 3 cs3 e3 h3
              have hrun : streamRun sched = ⟨.rejected e3,
                  ([] ++ cs1 ++ [.onReconnecting 1 maxAttempts]) ++ cs2 ++
                    [.onReconnecting 2 maxAttempts] ++ cs3,
                  ([] ++ [delayFor 1]) ++ [delayFor 2], 3⟩ := by
                unfold streamRun
                rw [runLoop_step_retry sched maxAttempts 1 [] [] cs1 e1 (by decide) h1 hr1
                    (by decide) hab1,
                  runLoop_step_retry sched (maxAttempts - 1) 2 _ _ cs2 e2 (by decide) h2
                    hr2 (by decide) hab2,
                  runLoop_step_max sched (maxAttempts - 1 - 1) 3 _ _ cs3 e3 (by decide) h3
                    hr3 (by decide)]
              rw [hrun] at hout
              simp at hout
              subst hout
              exact ⟨cs1, e1, cs2, e2, cs3, rfl, rfl, rfl, by rw [hrun]⟩
          · unfold streamRun at hout
            rw [runLoop_step_retry sched maxAttempts 1 [] [] cs1 e1 (by decide) h1 hr1
                (by decide) hab1,
              runLoop_step_abort_delay sched (maxAttempts - 1) 2 _ _ cs2 e2 (by decide)
                h2 hr2 (by decide) hab2] at hout
            simp at hout
      · unfold streamRun at hout
        rw [runLoop_step_abort_delay sched maxAttempts 1 [] [] cs1 e1 (by decide) h1
            hr1 (by decide) hab1] at hout
        simp at hout

/-- C4 witness: the schedule evaluated on concrete fail/fail/succeed and
fail/fail/fail schedules, and the rejection-path conjunct at the latter. -/
theorem c4_witness :
    streamRun (sched3 (.failed [] .typeError) (.failed [] (.httpError 502))
        (.ok [.onDone none]))
      = ⟨.resolved,
        [] ++ [.onReconnecting 1 3] ++ ([] ++ [.onReconnecting 2 3] ++ [.onDone none]),
        [1000, 2000], 3⟩ ∧
    streamRun (sched3 (.failed [] .typeError) (.failed [] .typeError)
        (.failed [] (.httpError 504)))
      = ⟨.rejected (.httpError 504),
        [] ++ [.onReconnecting 1 3] ++ ([] ++ [.onReconnecting 2 3] ++ []),
        [1000, 2000], 3⟩ ∧
    ∃ cs1 e1 cs2 e2 cs3,
      (sched3 (.failed [] .typeError) (.failed [] .typeError)
          (.failed [] (.httpError 504))).attempts 1 = .failed cs1 e1 ∧
      (sched3 (.failed [] .typeError) (.failed [] .typeError)
          (.failed [] (.httpError 504))).attempts 2 = .failed cs2 e2 ∧
      (sched3 (.failed [] .typeError) (.failed [] .typeError)
          (.failed [] (.httpError 504))).attempts 3 = .failed cs3 (.httpError 504) ∧
      (streamRun (sched3 (.failed [] .typeError) (.failed [] .typeError)
          (.failed [] (.httpError 504)))).attemptsMade = 3 :=
  ⟨c4_retry_schedule.1 _ [] [] [.onDone none] .typeError (.httpError 502)
      rfl (by decide) rfl rfl rfl rfl rfl,
   c4_retry_schedule.2.1 _ [] [] [] .typeError .typeError (.httpError 504)
      rfl rfl (by decide) rfl rfl rfl rfl rfl,
   c4_retry_schedule.2.2 _ (.httpError 504)
      (by
        intro i cs e' h
        by_cases h1 : i = 1
        · simp [sched3, h1] at h
          rw [← h.2]
          rfl
        · by_cases h2 : i = 2
          · simp [sched3, h1, h2] at h
            rw [← h.2]
            rfl
          · simp [sched3, h1, h2] at h
            rw [← h.2]
            decide)
      (by decide)⟩

-- ---------------------------------------------------------------------------
-- C3: cancellation silence
-- ---------------------------------------------------------------------------

/-- Any `onError` call in a run's trace stems from an attempt's own
dispatched frames (or the initial accumulator), never from the retry loop's
error handling. -/
theorem runLoop_onError_origin (sched : Schedule) :
    ∀ (fuel attempt : Nat) (calls : List HandlerCall) (delays : List Nat) (msg : Str),
      HandlerCall.onError msg ∈ (runLoop sched fuel attempt calls delays).calls →
      HandlerCall.onError msg ∈ calls ∨
        ∃ j, HandlerCall.onError msg ∈ traceOf (sched.attempts j) := by
  intro fuel
  induction fuel with
  | zero =>
    intro attempt calls delays msg h
    simp only [runLoop] at h
    exact Or.inl h
  | succ f ih =>
    intro attempt calls delays msg h
    simp only [runLoop] at h
    rcases ha : sched.attempts attempt with cs | cs | ⟨cs, e⟩ <;> simp only [ha] at h
    · rcases List.mem_append.1 h with h | h
      · exact Or.inl h
      · exact Or.inr ⟨attempt, by rw [ha]; exact h⟩
    · rcases List.mem_append.1 h with h | h
      · exact Or.inl h
      · exact Or.inr ⟨attempt, by rw [ha]; exact h⟩
    · split_ifs at h
      · rcases List.mem_append.1 h with h | h
        · exact Or.inl h
        · exact Or.inr ⟨attempt, by rw [ha]; exact h⟩
      · rcases List.mem_append.1 h with h | h
        · exact Or.inl h
        · exact Or.inr ⟨attempt, by rw [ha]; exact h⟩
      · rcases List.mem_append.1 h with h | h
        · rcases List.mem_append.1 h with h | h
          · exact Or.inl h
          · exact Or.inr ⟨attempt, by rw [ha]; exact h⟩
        · simp at h
      · rcases ih _ _ _ _ h with h | h
        · rcases List.mem_append.1 h with h | h
          · rcases List.mem_append.1 h with h | h
            · exact Or.inl h
            · exact Or.inr ⟨attempt, by rw [ha]; exact h⟩
          · simp at h
        · exact Or.inr h

/-- C3: an abort observed while awaiting the fetch or reading the body
resolves the run at once with no further attempts; an abort during the
backoff wait does the same (after the already-issued `onReconnecting`);
and the loop never invokes `onError` on its own — every `onError` in a
run's trace comes from an in-band `error` frame dispatched by some
attempt. -/
theorem c3_cancellation_silent :
    (∀ (sched : Schedule) (fuel attempt : Nat) (calls : List HandlerCall)
      (delays : List Nat) (cs : List HandlerCall),
      1 ≤ fuel → sched.attempts attempt = .aborted cs →
      runLoop sched fuel attempt calls delays = ⟨.resolved, calls ++ cs, delays, attempt⟩) ∧
    (∀ (sched : Schedule) (fuel attempt : Nat) (calls : List HandlerCall)
      (delays : List Nat) (cs : List HandlerCall) (e : ErrKind),
      1 ≤ fuel → sched.attempts attempt = .failed cs e → isRetryableError e = true →
      attempt < maxAttempts → sched.abortInDelay attempt = true →
      runLoop sched fuel attempt calls delays
        = ⟨.resolved, calls ++ cs ++ [.onReconnecting attempt maxAttempts], delays, attempt⟩) ∧
    (∀ (sched : Schedule) (fuel attempt : Nat) (calls : List HandlerCall)
      (delays : List Nat) (msg : Str),
      HandlerCall.onError msg ∈ (runLoop sched fuel attempt calls delays).calls →
      HandlerCall.onError msg ∈ calls ∨
        ∃ j, HandlerCall.onError msg ∈ traceOf (sched.attempts j)) :=
  ⟨runLoop_step_aborted, runLoop_step_abort_delay,
   fun sched => runLoop_onError_origin sched⟩

/-- C3 witness: an abort during attempt 1 resolves with one attempt made;
an abort during the first backoff wait resolves after one reconnect
notification; and the only `onError` of a run with an in-band error frame
comes from that frame. -/
theorem c3_witness :
    runLoop abortSched 3 1 [] [] = ⟨.resolved, [], [], 1⟩ ∧
    runLoop abortDelaySched 3 1 [] [] = ⟨.resolved, [.onReconnecting 1 3], [], 1⟩ ∧
    (HandlerCall.onError ['x'] ∈ ([] : List HandlerCall) ∨
      ∃ j, HandlerCall.onError ['x'] ∈ traceOf (errFrameSched.attempts j)) :=
  ⟨c3_cancellation_silent.1 abortSched 3 1 [] [] [] (by omega) rfl,
   c3_cancellation_silent.2.1 abortDelaySched 3 1 [] [] [] .typeError (by omega) rfl
     rfl (by decide) rfl,
   c3_cancellation_silent.2.2 errFrameSched 3 1 [] [] ['x'] (by decide)⟩

/-- C10 witness: a data-less frame with an `event: ` line parses to `null`,
and appending a second `data: ` line to a frame changes nothing. -/
theorem c10_witness :
    (∀ l ∈ splitNL "event: done".toList, strStarts dataLabel l = false) ∧
    parseSSEEvent (fun s => some s) (fun _ => none) "event: done".toList = none ∧
    (∃ l ∈ splitNL "data: 1".toList, strStarts dataLabel l = true) ∧
    parseSSEEvent (fun s => some s) (fun _ => none)
        ("data: 1".toList ++ '\n' :: (dataLabel ++ "2".toList))
      = parseSSEEvent (fun s => some s) (fun _ => none) "data: 1".toList :=
  ⟨by decide,
   (c10_first_data_line_only (fun s => some s) (fun _ => none)
      "event: done".toList []).1 (by decide),
   by decide,
   (c10_first_data_line_only (fun s => some s) (fun _ => none)
      "data: 1".toList "2".toList).2 (by decide) (by decide)⟩

-- ---------------------------------------------------------------------------
-- C7: single-retry ceiling on 401
-- ---------------------------------------------------------------------------

/-- The log produced by `enrollApiKey` appends exactly one `enroll` call
(none when a key is already stored). -/
theorem enrollApiKey_log (w : Nat → MockResp) (store : Store) (idx : Nat)
    (log : List CallRec) :
    (enrollApiKey w store idx log).2.2
      = log ++ (if store.apiKey.isSome then [] else [⟨.enroll, none, none⟩]) := by
  unfold enrollApiKey
  by_cases h1 : store.apiKey.isSome = true
  · simp [h1]
  · rcases hk : (w idx).key with _ | k <;> simp [h1, hk]
    split_ifs <;> simp

/-- The log produced by `fetchCsrfToken` appends exactly one `csrfFetch`
call. -/
theorem fetchCsrfToken_log (w : Nat → MockResp) (store : Store) (idx : Nat)
    (log : List CallRec) :
    (fetchCsrfToken w store idx log).2.2.2 = log ++ [⟨.csrfFetch, none, none⟩] := by
  unfold fetchCsrfToken
  rcases hk : (w idx).csrfTok with _ | t <;> simp [hk]
  split_ifs <;> simp

/-- The wrapper `apiFetch` never issues more than one retry of the original request. -/
theorem apiFetch_retry_le_one (w : Nat → MockResp) (method? : Option Str) (store : Store) :
    ((apiFetch w method? store).log.countP (fun c => c.kind == CallKind.retry)) ≤ 1 := by
  unfold apiFetch
  simp only []
  split_ifs <;> (repeat' split)
  all_goals
    simp [enrollApiKey_log, fetchCsrfToken_log, List.countP_append, List.countP_cons,
      beq_iff_eq]
  all_goals (split_ifs <;> simp [List.countP_cons, beq_iff_eq])

/-- C7: on an initial 401, at most one retry is ever issued; with a stored
user id and a successful re-enrollment, exactly 3 transport calls occur
(original, enroll, retry) and the retry's response is returned as-is (no
hypothesis on its status — even another 401 is returned); with no stored
user id, the original 401 comes back after 1 call; and when re-enrollment
yields no key, the original 401 comes back after 2 calls. -/
theorem c7_single_retry_on_401 :
    ∀ (w : Nat → MockResp) (method? : Option Str) (store : Store),
      (w 0).netErr = false → (w 0).status = 401 →
      ((∀ uid nk, store.userId = some uid → (w 1).netErr = false →
          respOk (w 1) = true → (w 1).key = some nk → (w 2).netErr = false →
          (apiFetch w method? store).response = some (w 2) ∧
          (apiFetch w method? store).callCount = 3 ∧
          (apiFetch w method? store).log.map CallRec.kind
            = [.original, .enroll, .retry]) ∧
       (store.userId = none →
          (apiFetch w method? store).response = some (w 0) ∧
          (apiFetch w method? store).callCount = 1) ∧
       (∀ uid, store.userId = some uid → (w 1).netErr = false → (w 1).key = none →
          (apiFetch w method? store).response = some (w 0) ∧
          (apiFetch w method? store).callCount = 2) ∧
       (apiFetch w method? store).log.countP (fun c => c.kind == CallKind.retry) ≤ 1) := by
  intro w method? store hn h4
  refine ⟨?_, ?_, ?_, apiFetch_retry_le_one w method? store⟩
  · intro uid nk hu he1 he2 he3 hr2
    rcases hk : store.apiKey with _ | k <;>
      simp [apiFetch, enrollApiKey, hn, h4, hk, hu, he1, he2, he3, hr2]
  · intro hu
    rcases hk : store.apiKey with _ | k <;>
      simp [apiFetch, hn, h4, hk, hu]
  · intro uid hu he1 he3
    rcases hk : store.apiKey with _ | k <;>
      simp [apiFetch, enrollApiKey, hn, h4, hk, hu, he1, he3]

/-- C7 witness: the three scenarios on concrete oracles (the retry response
being again a 401 in the success case, to exercise "returned as-is"). -/
theorem c7_witness :
    (apiFetch w401 none storeWithUser).response = some (w401 2) ∧
    (apiFetch w401 none storeWithUser).callCount = 3 ∧
    (apiFetch w401 none storeNoUser).callCount = 1 ∧
    (apiFetch w401fail none storeWithUser).callCount = 2 :=
  ⟨((c7_single_retry_on_401 w401 none storeWithUser (by decide) (by decide)).1
      ['u'] ['k'] (by decide) (by decide) (by decide) (by decide) (by decide)).1,
   ((c7_single_retry_on_401 w401 none storeWithUser (by decide) (by decide)).1
      ['u'] ['k'] (by decide) (by decide) (by decide) (by decide) (by decide)).2.1,
   ((c7_single_retry_on_401 w401 none storeNoUser (by decide) (by decide)).2.1
      (by decide)).2,
   ((c7_single_retry_on_401 w401fail none storeWithUser (by decide) (by decide)).2.2.1
      ['u'] (by decide) (by decide) (by decide)).2⟩

-- ---------------------------------------------------------------------------
-- C8: 403 CSRF recovery
-- ---------------------------------------------------------------------------

/-- C8: for a state-changing method, a 403 whose parsed error code starts
with `CSRF_` clears the cached token and fetches a fresh one; when a token
is obtained the request is retried exactly once with the new token and the
retry's response is returned as-is (one `csrfFetch` in the log — no second
refresh); when the body is unparseable, or no token is obtained, the
original 403 is returned. -/
theorem c8_csrf_recovery :
    ∀ (w : Nat → MockResp) (method? : Option Str) (store : Store) (code : Str),
      toUpperStr (method?.getD "GET".toList) ∈ CSRF_PROTECTED_METHODS →
      (w 0).netErr = false → (w 0).status = 403 →
      ((∀ t, (w 0).errCode = some code → strStarts csrfCodeMarker code = true →
          (w 1).netErr = false → respOk (w 1) = true → (w 1).csrfTok = some t →
          (w 2).netErr = false →
          (apiFetch w method? store).response = some (w 2) ∧
          (apiFetch w method? store).callCount = 3 ∧
          (apiFetch w method? store).log
            = [⟨.original, store.apiKey, store.csrf⟩, ⟨.csrfFetch, none, none⟩,
               ⟨.retry, store.apiKey, some t⟩] ∧
          (apiFetch w method? store).store.csrf = some t) ∧
       ((w 0).errCode = none →
          (apiFetch w method? store).response = some (w 0) ∧
          (apiFetch w method? store).callCount = 1) ∧
       ((w 0).errCode = some code → strStarts csrfCodeMarker code = true →
          ((w 1).netErr = true ∨ respOk (w 1) = false ∨ (w 1).csrfTok = none) →
          (apiFetch w method? store).response = some (w 0) ∧
          (apiFetch w method? store).callCount = 2 ∧
          (apiFetch w method? store).store.csrf = none)) := by
  intro w method? store code hm hn h4
  have hne : ¬ (w 0).status = 401 := by omega
  have hmem : toUpperStr (method?.getD ['G', 'E', 'T']) ∈ CSRF_PROTECTED_METHODS := hm
  refine ⟨?_, ?_, ?_⟩
  · intro t hc hcs he1 he2 he3 hr2
    simp [apiFetch, fetchCsrfToken, hn, hne, h4, hmem, hc, hcs, he1, he2, he3, hr2]
  · intro hc
    simp [apiFetch, hn, hne, h4, hmem, hc]
  · intro hc hcs hfail
    rcases hfail with hf | hf | hf
    · simp [apiFetch, fetchCsrfToken, hn, hne, h4, hmem, hc, hcs, hf]
    · simp [apiFetch, fetchCsrfToken, hn, hne, h4, hmem, hc, hcs, hf]
    · rcases ho : (w 1).netErr with _ | _
      · rcases ho2 : respOk (w 1) with _ | _
        · simp [apiFetch, fetchCsrfToken, hn, hne, h4, hmem, hc, hcs, ho, ho2]
        · simp [apiFetch, fetchCsrfToken, hn, hne, h4, hmem, hc, hcs, ho, ho2, hf]
      · simp [apiFetch, fetchCsrfToken, hn, hne, h4, hmem, hc, hcs, ho]

/-- C8 witness: the CSRF recovery on concrete oracles — a successful
refresh-and-retry, an unparseable 403 body, and a failed refresh. -/
theorem c8_witness :
    (apiFetch w403 (some "POST".toList) storeCsrf).log
      = [⟨.original, storeCsrf.apiKey, storeCsrf.csrf⟩, ⟨.csrfFetch, none, none⟩,
         ⟨.retry, storeCsrf.apiKey, some ['t']⟩] ∧
    (apiFetch w403noCode (some "POST".toList) storeCsrf).callCount = 1 ∧
    (apiFetch w403fail (some "POST".toList) storeCsrf).store.csrf = none :=
  ⟨((c8_csrf_recovery w403 (some "POST".toList) storeCsrf "CSRF_EXPIRED".toList
      (by decide) (by decide) (by decide)).1 ['t'] (by decide) (by decide) (by decide)
      (by decide) (by decide) (by decide)).2.2.1,
   ((c8_csrf_recovery w403noCode (some "POST".toList) storeCsrf [] (by decide)
      (by decide) (by decide)).2.1 (by decide)).2,
   ((c8_csrf_recovery w403fail (some "POST".toList) storeCsrf "CSRF_EXPIRED".toList
      (by decide) (by decide) (by decide)).2.2 (by decide) (by decide)
      (Or.inr (Or.inl (by decide)))).2.2⟩

-- ---------------------------------------------------------------------------
-- C9: tip round-trip
-- ---------------------------------------------------------------------------

/-- Failing `containsSub` at a cons refutes both the match at the front and
the containment in the tail. -/
theorem containsSub_cons_false (pat : Str) (c : Char) (s : Str)
    (h : containsSub pat (c :: s) = false) :
    strStarts pat (c :: s) = false ∧ containsSub pat s = false := by
  simpa [containsSub] using h

/-- The worker `stripTipsF` does not depend on the fuel once it covers the input
length. -/
theorem stripTipsF_fuel : ∀ (fuel fuel' : Nat) (s : Str),
    s.length ≤ fuel → s.length ≤ fuel' → stripTipsF fuel s = stripTipsF fuel' s := by
  intro fuel
  induction fuel with
  | zero =>
    intro fuel' s hs _
    have : s = [] := List.length_eq_zero.1 (by omega)
    subst this
    cases fuel' <;> rfl
  | succ f ih =>
    intro fuel' s hs hs'
    cases s with
    | nil => cases fuel' <;> rfl
    | cons c rest =>
      cases fuel' with
      | zero => simp at hs'
      | succ f' =>
        simp only [stripTipsF]
        split_ifs with h
        · rcases ha : afterClose ((c :: rest).drop 5) with _ | rest'
          · rfl
          · have hlt := afterClose_length _ _ ha
            simp only [List.length_drop, List.length_cons] at hlt hs hs'
            exact ih f' rest' (by omega) (by omega)
        · have := ih f' rest (by simp only [List.length_cons] at hs; omega)
            (by simp only [List.length_cons] at hs'; omega)
          rw [this]

/-- The one-step unfolding of `stripTips` on a cons cell. -/
theorem stripTips_cons (c : Char) (rest : Str) :
    stripTips (c :: rest) =
      if strStarts openTag (c :: rest) then
        match afterClose ((c :: rest).drop 5) with
        | some rest' => stripTips rest'
        | none => c :: rest
      else c :: stripTips rest := by
  show stripTipsF (rest.length + 1) (c :: rest) = _
  simp only [stripTipsF]
  split_ifs with h
  · rcases ha : afterClose ((c :: rest).drop 5) with _ | rest'
    · rfl
    · have hlt := afterClose_length _ _ ha
      simp only [List.length_drop, List.length_cons] at hlt
      exact stripTipsF_fuel _ _ _ (by omega) le_rfl
  · rfl

/-- A string with no `[TIP]` marker passes through `stripTips` unchanged
("nothing else is changed"). -/
theorem stripTips_no_open : ∀ u : Str, containsSub openTag u = false → stripTips u = u := by
  intro u
  induction u with
  | nil => intro _; rfl
  | cons c rest ih =>
    intro h
    obtain ⟨h1, h2⟩ := containsSub_cons_false _ _ _ h
    rw [stripTips_cons, if_neg (by simp [h1]), ih h2]

/-- A short nonempty string followed by `[/TIP]` cannot itself begin a
`[/TIP]` match (the closing tag does not overlap itself). -/
theorem strStarts_closeTag_straddle : ∀ (t X : Str), t ≠ [] → t.length ≤ 5 →
    strStarts closeTag (t ++ (closeTag ++ X)) = false := by
  intro t X h1 hlen
  rcases t with _ | ⟨c1, t⟩
  · exact absurd rfl h1
  rcases t with _ | ⟨c2, t⟩
  · simp [closeTag, strStarts]
  rcases t with _ | ⟨c3, t⟩
  · simp [closeTag, strStarts]
  rcases t with _ | ⟨c4, t⟩
  · simp [closeTag, strStarts]
  rcases t with _ | ⟨c5, t⟩
  · simp [closeTag, strStarts]
  rcases t with _ | ⟨c6, t⟩
  · simp [closeTag, strStarts]
  · simp at hlen

/-- A short nonempty string followed by `[TIP]` cannot itself begin a
`[TIP]` match (the opening tag does not overlap itself). -/
theorem strStarts_openTag_straddle : ∀ (t X : Str), t ≠ [] → t.length ≤ 4 →
    strStarts openTag (t ++ (openTag ++ X)) = false := by
  intro t X h1 hlen
  rcases t with _ | ⟨c1, t⟩
  · exact absurd rfl h1
  rcases t with _ | ⟨c2, t⟩
  · simp [openTag, strStarts]
  rcases t with _ | ⟨c3, t⟩
  · simp [openTag, strStarts]
  rcases t with _ | ⟨c4, t⟩
  · simp [openTag, strStarts]
  rcases t with _ | ⟨c5, t⟩
  · simp [openTag, strStarts]
  · simp at hlen

/-- Scanning for `[/TIP]` through text free of it lands exactly on the
appended closing tag. -/
theorem afterClose_append : ∀ t b : Str, containsSub closeTag t = false →
    afterClose (t ++ (closeTag ++ b)) = some b := by
  intro t
  induction t with
  | nil =>
    intro b _
    have hct : closeTag = '[' :: "/TIP]".toList := by decide
    rw [List.nil_append, hct, List.cons_append, afterClose, ← List.cons_append, ← hct,
      if_pos (strStarts_self_append closeTag b)]
    rw [show ((6 : Nat) = closeTag.length) from rfl, List.drop_left]
  | cons c t' ih =>
    intro b h
    obtain ⟨h1, h2⟩ := containsSub_cons_false _ _ _ h
    have hfalse : strStarts closeTag ((c :: t') ++ (closeTag ++ b)) = false := by
      by_cases hlen : (c :: t').length ≤ 5
      · exact strStarts_closeTag_straddle (c :: t') b (by simp) hlen
      · by_contra hcon
        rw [Bool.not_eq_false] at hcon
        have := strStarts_of_append_le closeTag (c :: t') (closeTag ++ b) hcon
          (by simp at hlen ⊢; simp [closeTag]; omega)
        rw [this] at h1
        exact absurd h1 (by simp)
    rw [List.cons_append, afterClose, if_neg (by rw [← List.cons_append, hfalse]; simp),
      ih b h2]

/-- Stripping removes an inline `[TIP]`-block: for marker-free `a` and `t`,
`a ++ "[TIP]" ++ t ++ "[/TIP]" ++ b` strips to `a ++ stripTips b`. -/
theorem stripTips_block : ∀ a t b : Str, containsSub openTag a = false →
    containsSub closeTag t = false →
    stripTips (a ++ (openTag ++ (t ++ (closeTag ++ b)))) = a ++ stripTips b := by
  intro a
  induction a with
  | nil =>
    intro t b _ ht
    have hot : openTag = '[' :: "TIP]".toList := by decide
    rw [List.nil_append, hot, List.cons_append, stripTips_cons, ← List.cons_append, ← hot,
      if_pos (strStarts_self_append openTag (t ++ (closeTag ++ b)))]
    rw [show ((5 : Nat) = openTag.length) from rfl, List.drop_left,
      afterClose_append t b ht, List.nil_append]
  | cons c a' ih =>
    intro t b h ht
    obtain ⟨h1, h2⟩ := containsSub_cons_false _ _ _ h
    have hfalse : strStarts openTag ((c :: a') ++ (openTag ++ (t ++ (closeTag ++ b))))
        = false := by
      by_cases hlen : (c :: a').length ≤ 4
      · exact strStarts_openTag_straddle (c :: a') _ (by simp) hlen
      · by_contra hcon
        rw [Bool.not_eq_false] at hcon
        have := strStarts_of_append_le openTag (c :: a') _ hcon
          (by simp at hlen ⊢; simp [openTag]; omega)
        rw [this] at h1
        exact absurd h1 (by simp)
    rw [List.cons_append, stripTips_cons, if_neg (by rw [← List.cons_append, hfalse]; simp),
      ih t b h2 ht, List.cons_append]

/-- C9: dispatching `text` with content `a ++ "[TIP]" ++ t ++ "[/TIP]" ++ b`
(`a` free of `[TIP]`, `t` free of `[/TIP]`) calls `onText` with the block
removed and nothing else changed (`a ++ stripTips b`; a marker-free
remainder passes through `stripTips` unchanged, second conjunct); and
dispatching `tip` with a nonempty `data.text` (or `data.content`) calls
`onTip` with the tags restored: `"\n\n[TIP]\n" ++ t ++ "\n[/TIP]"`. -/
theorem c9_tip_round_trip :
    (∀ a t b : Str, containsSub openTag a = false → containsSub closeTag t = false →
      dispatchEvent "text".toList
          { content := some (a ++ (openTag ++ (t ++ (closeTag ++ b)))) }
        = (some (.onText (a ++ stripTips b)), true)) ∧
    (∀ u : Str, containsSub openTag u = false → stripTips u = u) ∧
    (∀ t : Str, t ≠ [] →
      dispatchEvent "tip".toList { text := some t }
        = (some (.onTip ("\n\n[TIP]\n".toList ++ t ++ "\n[/TIP]".toList)), true)) ∧
    (∀ t : Str, t ≠ [] →
      dispatchEvent "tip".toList { content := some t }
        = (some (.onTip ("\n\n[TIP]\n".toList ++ t ++ "\n[/TIP]".toList)), true)) := by
  refine ⟨fun a t b ha ht => ?_, stripTips_no_open, fun t htne => ?_, fun t htne => ?_⟩
  · have hne : (a ++ (openTag ++ (t ++ (closeTag ++ b)))).isEmpty = false := by
      cases a <;> simp [openTag]
    simp [dispatchEvent, hne, stripTips_block a t b ha ht]
  · simp [dispatchEvent, strTruthy, htne, wrapTip]
  · simp [dispatchEvent, strTruthy, htne, wrapTip]

/-- C9 witness: a concrete text frame with one inline tip block, and a
concrete tip frame via each of the two payload fields. -/
theorem c9_witness :
    dispatchEvent "text".toList
        { content := some ("ab".toList ++ (openTag ++
            ("hint".toList ++ (closeTag ++ "cd".toList)))) }
      = (some (.onText ("ab".toList ++ stripTips "cd".toList)), true) ∧
    stripTips "cd".toList = "cd".toList ∧
    dispatchEvent "tip".toList { text := some "hint".toList }
      = (some (.onTip ("\n\n[TIP]\n".toList ++ "hint".toList ++ "\n[/TIP]".toList)), true) ∧
    dispatchEvent "tip".toList { content := some "hint".toList }
      = (some (.onTip ("\n\n[TIP]\n".toList ++ "hint".toList ++ "\n[/TIP]".toList)), true) :=
  ⟨c9_tip_round_trip.1 "ab".toList "hint".toList "cd".toList (by decide) (by decide),
   c9_tip_round_trip.2.1 "cd".toList (by decide),
   c9_tip_round_trip.2.2.1 "hint".toList (by decide),
   c9_tip_round_trip.2.2.2 "hint".toList (by decide)⟩

-- ---------------------------------------------------------------------------
-- C2: no dispatch after a done frame
-- ---------------------------------------------------------------------------

/-- C2, counterexample: the `break` at `useSSEStream.ts:248` only exits the
`for` loop over one read's batch of candidates, not the `while` read loop —
a `text` frame delivered in a chunk after the chunk carrying the `done`
frame IS dispatched, while the same two frames in a single chunk stop at
`done`. -/
theorem c2_counterexample :
    dispatchedFrames unitJParse unitJType [doneChunk, textChunk]
      = [⟨doneType, ()⟩, ⟨"text".toList, ()⟩] ∧
    dispatchedFrames unitJParse unitJType [doneChunk ++ textChunk]
      = [⟨doneType, ()⟩] := by
  constructor <;> decide

/-- C2, amended: within one batch of complete candidates (one read
iteration), dispatch stops with the `done` frame — the `done` frame itself
is dispatched and nothing after it in that batch is; a batch without a
`done` frame is dispatched in full.  (Frames arriving in later read
iterations are dispatched again, as the counterexample shows.) -/
theorem c2_done_stops_batch :
    (∀ (J : Type) (fs gs : List (Frame J)) (f : Frame J),
      f.type = doneType → (∀ g ∈ fs, g.type ≠ doneType) →
      takeThroughDone (fs ++ f :: gs) = fs ++ [f]) ∧
    (∀ (J : Type) (fs : List (Frame J)),
      (∀ g ∈ fs, g.type ≠ doneType) → takeThroughDone fs = fs) := by
  constructor
  · intro J fs
    induction fs with
    | nil =>
      intro gs f hf _
      simp [takeThroughDone, hf]
    | cons g fs ih =>
      intro gs f hf hno
      rw [List.cons_append, takeThroughDone,
        if_neg (hno g (by simp)), ih gs f hf (fun g' hg' => hno g' (by simp [hg']))]
      rfl
  · intro J fs
    induction fs with
    | nil => intro _; rfl
    | cons g fs ih =>
      intro hno
      rw [takeThroughDone, if_neg (hno g (by simp)), ih (fun g' hg' => hno g' (by simp [hg']))]

/-- C2 witness: a batch `text, done, text` dispatches `text, done`; a batch
of a single `text` frame is dispatched whole. -/
theorem c2_witness :
    takeThroughDone ([⟨"text".toList, ()⟩] ++ ⟨doneType, ()⟩ :: [⟨"text".toList, ()⟩])
      = [⟨"text".toList, ()⟩] ++ [⟨doneType, ()⟩] ∧
    takeThroughDone [(⟨"text".toList, ()⟩ : Frame Unit)] = [⟨"text".toList, ()⟩] :=
  ⟨c2_done_stops_batch.1 Unit [⟨"text".toList, ()⟩] [⟨"text".toList, ()⟩]
      ⟨doneType, ()⟩ rfl (by decide),
   c2_done_stops_batch.2 Unit [⟨"text".toList, ()⟩] (by decide)⟩

-- ---------------------------------------------------------------------------
-- C1: chunk-split invariance of frame reassembly
-- ---------------------------------------------------------------------------

/-- A one-piece split means the input held no delimiter: the piece is the
whole input. -/
theorem splitNN_eq_singleton : ∀ (l : Str) (p : Str), splitNN l = [p] → p = l := by
  intro l
  induction l using splitNN.induct with
  | case1 =>
    intro p h
    simp [splitNN] at h
    exact h
  | case2 c =>
    intro p h
    simp [splitNN] at h
    exact h.symm
  | case3 c d cs hcd ih =>
    intro p h
    rw [splitNN, if_pos hcd] at h
    have := congrArg List.length h
    simp at this
    exact absurd this (splitNN_ne_nil cs)
  | case4 c d cs hcd ih =>
    intro p h
    rw [splitNN, if_neg hcd] at h
    rcases hS : splitNN (d :: cs) with _ | ⟨q, qs⟩
    · exact absurd hS (splitNN_ne_nil _)
    · rw [hS] at h
      simp only [consHead, List.cons.injEq] at h
      have hq := ih q (by rw [hS, h.2])
      rw [← h.1, hq]

/-- Splitting a concatenation: the last (possibly incomplete) piece of the
first part merges with the second part and is re-split — exactly the
buffer-carry discipline of the read loop. -/
theorem splitNN_append : ∀ a b : Str,
    splitNN (a ++ b) = (splitNN a).dropLast
      ++ splitNN ((splitNN a).getLastD [] ++ b) := by
  intro a
  induction a using splitNN.induct with
  | case1 => intro b; simp [splitNN]
  | case2 c => intro b; simp [splitNN, consHead]
  | case3 c d cs hcd ih =>
    intro b
    have hL : splitNN ((c :: d :: cs) ++ b) = [] :: splitNN (cs ++ b) := by
      rw [List.cons_append, List.cons_append, splitNN, if_pos hcd]
    have hR : splitNN (c :: d :: cs) = [] :: splitNN cs := by
      rw [splitNN, if_pos hcd]
    rw [hL, ih b, hR]
    rcases hS : splitNN cs with _ | ⟨q, qs⟩
    · exact absurd hS (splitNN_ne_nil cs)
    · simp [List.getLastD_cons]
  | case4 c d cs hcd ih =>
    intro b
    have hL : splitNN ((c :: d :: cs) ++ b) = consHead c (splitNN ((d :: cs) ++ b)) := by
      rw [List.cons_append, List.cons_append, splitNN, if_neg hcd]
    have hR : splitNN (c :: d :: cs) = consHead c (splitNN (d :: cs)) := by
      rw [splitNN, if_neg hcd]
    rw [hL, ih b, hR]
    rcases hS : splitNN (d :: cs) with _ | ⟨q, qs⟩
    · exact absurd hS (splitNN_ne_nil _)
    · rcases qs with _ | ⟨q2, qs'⟩
      · have hq := splitNN_eq_singleton _ _ hS
        subst hq
        have hL2 : splitNN ((c :: (d :: cs)) ++ b)
            = consHead c (splitNN ((d :: cs) ++ b)) := hL
        simp only [List.dropLast_single, List.getLastD_cons, List.getLastD_nil,
          List.nil_append, consHead, List.dropLast_nil]
        rw [hL2]
        rfl
      · simp only [consHead]
        simp only [List.getLastD_cons]
        have hd1 : (q :: q2 :: qs').dropLast = q :: (q2 :: qs').dropLast := rfl
        have hd2 : ((c :: q) :: q2 :: qs').dropLast = (c :: q) :: (q2 :: qs').dropLast := rfl
        rw [hd1, hd2]
        rfl

/-- Folding `feedStep` from an arbitrary output accumulator only prepends
that accumulator. -/
theorem feedStep_foldl_acc : ∀ (chunk : List Nat) (out : List Char) (st : List Nat),
    chunk.foldl feedStep (out, st)
      = (out ++ (feedChunk st chunk).1, (feedChunk st chunk).2) := by
  intro chunk
  induction chunk with
  | nil => intro out st; simp [feedChunk]
  | cons b bs ih =>
    intro out st
    have h1 : List.foldl feedStep (out, st) (b :: bs)
        = List.foldl feedStep (out ++ (feedByte st b).1, (feedByte st b).2) bs := rfl
    have h2 : feedChunk st (b :: bs)
        = ((feedByte st b).1 ++ (feedChunk (feedByte st b).2 bs).1,
           (feedChunk (feedByte st b).2 bs).2) := by
      show List.foldl feedStep ([] ++ (feedByte st b).1, (feedByte st b).2) bs = _
      rw [ih]
      simp
    rw [h1, ih, h2]
    simp

/-- The streaming decoder is a state machine: feeding a concatenation feeds
the parts in sequence. -/
theorem feedChunk_append (st xs ys : List Nat) :
    feedChunk st (xs ++ ys)
      = ((feedChunk st xs).1 ++ (feedChunk (feedChunk st xs).2 ys).1,
         (feedChunk (feedChunk st xs).2 ys).2) := by
  show List.foldl feedStep ([], st) (xs ++ ys) = _
  rw [List.foldl_append]
  have h1 : List.foldl feedStep ([], st) xs
      = ((feedChunk st xs).1, (feedChunk st xs).2) := rfl
  rw [h1]
  exact feedStep_foldl_acc ys _ _

/-- Loop invariant for the read loop: after any number of chunks, the
emitted candidates plus a final split of the buffer (with any tail `X`
appended) equal one split of the whole decoded text, and the decoder state
is that of decoding the concatenated bytes. -/
theorem readStep_foldl : ∀ (chunks : List (List Nat)) (d : List Nat) (buf : Str)
    (out : List Str) (X : Str),
    (chunks.foldl readStep ((d, buf), out)).1.1 = (feedChunk d chunks.flatten).2 ∧
    (chunks.foldl readStep ((d, buf), out)).2 ++
        (splitNN ((chunks.foldl readStep ((d, buf), out)).1.2 ++ X)).dropLast
      = out ++ (splitNN (buf ++ ((feedChunk d chunks.flatten).1 ++ X))).dropLast := by
  intro chunks
  induction chunks with
  | nil =>
    intro d buf out X
    constructor
    · rfl
    · simp [feedChunk]
  | cons ch rest ih =>
    intro d buf out X
    have hstep : List.foldl readStep ((d, buf), out) (ch :: rest)
        = List.foldl readStep
            (((feedChunk d ch).2, (splitNN (buf ++ (feedChunk d ch).1)).getLastD []),
             out ++ (splitNN (buf ++ (feedChunk d ch).1)).dropLast) rest := rfl
    obtain ⟨ih1, ih2⟩ := ih (feedChunk d ch).2
      ((splitNN (buf ++ (feedChunk d ch).1)).getLastD [])
      (out ++ (splitNN (buf ++ (feedChunk d ch).1)).dropLast) X
    constructor
    · rw [hstep, ih1]
      have := feedChunk_append d ch rest.flatten
      rw [show (ch :: rest).flatten = ch ++ rest.flatten from rfl, this]
    · rw [hstep, ih2]
      rw [show (ch :: rest).flatten = ch ++ rest.flatten from rfl,
        feedChunk_append d ch rest.flatten]
      have hsplit := splitNN_append (buf ++ (feedChunk d ch).1)
        ((feedChunk (feedChunk d ch).2 rest.flatten).1 ++ X)
      have hne := splitNN_ne_nil
        ((splitNN (buf ++ (feedChunk d ch).1)).getLastD []
          ++ ((feedChunk (feedChunk d ch).2 rest.flatten).1 ++ X))
      rw [List.append_assoc, List.append_assoc]
      rw [show buf ++ ((feedChunk d ch).1 ++ ((feedChunk (feedChunk d ch).2 rest.flatten).1 ++ X))
          = (buf ++ (feedChunk d ch).1) ++ ((feedChunk (feedChunk d ch).2 rest.flatten).1 ++ X) by
        simp [List.append_assoc]]
      rw [hsplit, List.dropLast_append_of_ne_nil _ hne]

/-- Closed form of `processChunks`: whatever the chunking, the candidates
are one split of (decoded bytes plus decoder flush), minus the last
piece. -/
theorem processChunks_flatten (chunks : List (List Nat)) :
    processChunks chunks
      = (splitNN ((feedChunk [] chunks.flatten).1
          ++ flushDec (feedChunk [] chunks.flatten).2)).dropLast := by
  obtain ⟨h1, h2⟩ := readStep_foldl chunks [] [] []
    (flushDec (feedChunk [] chunks.flatten).2)
  show (List.foldl readStep (([], []), []) chunks).2 ++
      (splitNN ((List.foldl readStep (([], []), []) chunks).1.2
        ++ flushDec (List.foldl readStep (([], []), []) chunks).1.1)).dropLast = _
  rw [h1]
  simpa using h2

/-- Decoding the UTF-8 bytes of one character emits exactly that character
and leaves an empty decoder state. -/
theorem feedChunk_utf8Bytes (c : Char) : feedChunk [] (utf8Bytes c) = ([c], []) := by
  have hv : c.toNat < 0xd800 ∨ 0xe000 ≤ c.toNat ∧ c.toNat < 0x110000 := c.valid
  have hvu : c.toNat < 0x110000 := by omega
  by_cases h1 : c.toNat < 0x80
  · have hneed : utf8Need c.toNat = 1 := by
      unfold utf8Need
      rw [if_pos h1]
    rw [show utf8Bytes c = [c.toNat] from by unfold utf8Bytes; rw [if_pos h1]]
    show feedStep ([], []) c.toNat = ([c], [])
    unfold feedStep feedByte
    simp only [List.nil_append, hneed, List.length_singleton, if_pos]
    rw [show decodePoint [c.toNat] = c.toNat from by
      simp only [decodePoint]
      rw [if_pos h1]]
    rw [Char.ofNat_toNat]
  · by_cases h2 : c.toNat < 0x800
    · have hneed : utf8Need (0xC0 + c.toNat / 0x40) = 2 := by
        unfold utf8Need
        rw [if_neg (by omega), if_neg (by omega), if_pos (by omega)]
      have e1 : feedByte [] (0xC0 + c.toNat / 0x40) = ([], [0xC0 + c.toNat / 0x40]) := by
        unfold feedByte
        simp only [List.nil_append, hneed, List.length_singleton]
        rw [if_neg (by simp)]
      have e2 : feedByte [0xC0 + c.toNat / 0x40] (0x80 + c.toNat % 0x40) = ([c], []) := by
        unfold feedByte
        simp only [List.singleton_append, List.nil_append, hneed, List.length_cons, List.length_singleton]
        rw [if_pos (by simp)]
        rw [show decodePoint [0xC0 + c.toNat / 0x40, 0x80 + c.toNat % 0x40] = c.toNat from by
          simp only [decodePoint]
          rw [if_pos (by simp [isContByte]; omega)]
          omega]
        rw [Char.ofNat_toNat]
      rw [show utf8Bytes c = [0xC0 + c.toNat / 0x40, 0x80 + c.toNat % 0x40] from by
        unfold utf8Bytes
        rw [if_neg h1, if_pos h2]]
      show feedStep (feedStep ([], []) _) _ = ([c], [])
      rw [show feedStep ([], []) (0xC0 + c.toNat / 0x40) = ([], [0xC0 + c.toNat / 0x40]) from by simp [feedStep, e1]]
      simp [feedStep, e2]
    · by_cases h3 : c.toNat < 0x10000
      · have hneed : utf8Need (0xE0 + c.toNat / 0x1000) = 3 := by
          unfold utf8Need
          rw [if_neg (by omega), if_neg (by omega), if_neg (by omega), if_pos (by omega)]
        have e1 : feedByte [] (0xE0 + c.toNat / 0x1000) = ([], [0xE0 + c.toNat / 0x1000]) := by
          unfold feedByte
          simp only [List.nil_append, hneed, List.length_singleton]
          rw [if_neg (by simp)]
        have e2 : feedByte [0xE0 + c.toNat / 0x1000] (0x80 + c.toNat / 0x40 % 0x40)
            = ([], [0xE0 + c.toNat / 0x1000, 0x80 + c.toNat / 0x40 % 0x40]) := by
          unfold feedByte
          simp only [List.singleton_append, List.nil_append, hneed, List.length_cons, List.length_singleton]
          rw [if_neg (by simp)]
        have e3 : feedByte [0xE0 + c.toNat / 0x1000, 0x80 + c.toNat / 0x40 % 0x40]
            (0x80 + c.toNat % 0x40) = ([c], []) := by
          unfold feedByte
          simp only [List.cons_append, List.singleton_append, List.nil_append, hneed, List.length_cons,
            List.length_singleton]
          rw [if_pos (by simp)]
          rw [show decodePoint [0xE0 + c.toNat / 0x1000, 0x80 + c.toNat / 0x40 % 0x40,
              0x80 + c.toNat % 0x40] = c.toNat from by
            simp only [decodePoint]
            rw [if_pos (by simp [isContByte]; omega)]
            omega]
          rw [Char.ofNat_toNat]
        rw [show utf8Bytes c = [0xE0 + c.toNat / 0x1000, 0x80 + c.toNat / 0x40 % 0x40,
            0x80 + c.toNat % 0x40] from by
          unfold utf8Bytes
          rw [if_neg h1, if_neg h2, if_pos h3]]
        show feedStep (feedStep (feedStep ([], []) _) _) _ = ([c], [])
        rw [show feedStep ([], []) (0xE0 + c.toNat / 0x1000)
            = ([], [0xE0 + c.toNat / 0x1000]) from by simp [feedStep, e1]]
        rw [show feedStep (([] : List Char), [0xE0 + c.toNat / 0x1000])
            (0x80 + c.toNat / 0x40 % 0x40)
            = ([], [0xE0 + c.toNat / 0x1000, 0x80 + c.toNat / 0x40 % 0x40]) from by simp [feedStep, e2]]
        simp [feedStep, e3]
      · have hneed : utf8Need (0xF0 + c.toNat / 0x40000) = 4 := by
          unfold utf8Need
          rw [if_neg (by omega), if_neg (by omega), if_neg (by omega), if_neg (by omega),
            if_pos (by omega)]
        have e1 : feedByte [] (0xF0 + c.toNat / 0x40000) = ([], [0xF0 + c.toNat / 0x40000]) := by
          unfold feedByte
          simp only [List.nil_append, hneed, List.length_singleton]
          rw [if_neg (by simp)]
        have e2 : feedByte [0xF0 + c.toNat / 0x40000] (0x80 + c.toNat / 0x1000 % 0x40)
            = ([], [0xF0 + c.toNat / 0x40000, 0x80 + c.toNat / 0x1000 % 0x40]) := by
          unfold feedByte
          simp only [List.singleton_append, List.nil_append, hneed, List.length_cons, List.length_singleton]
          rw [if_neg (by simp)]
        have e3 : feedByte [0xF0 + c.toNat / 0x40000, 0x80 + c.toNat / 0x1000 % 0x40]
            (0x80 + c.toNat / 0x40 % 0x40)
            = ([], [0xF0 + c.toNat / 0x40000, 0x80 + c.toNat / 0x1000 % 0x40,
                0x80 + c.toNat / 0x40 % 0x40]) := by
          unfold feedByte
          simp only [List.cons_append, List.singleton_append, List.nil_append, hneed, List.length_cons,
            List.length_singleton]
          rw [if_neg (by simp)]
        have e4 : feedByte [0xF0 + c.toNat / 0x40000, 0x80 + c.toNat / 0x1000 % 0x40,
            0x80 + c.toNat / 0x40 % 0x40] (0x80 + c.toNat % 0x40) = ([c], []) := by
          unfold feedByte
          simp only [List.cons_append, List.singleton_append, List.nil_append, hneed, List.length_cons,
            List.length_singleton]
          rw [if_pos (by simp)]
          rw [show decodePoint [0xF0 + c.toNat / 0x40000, 0x80 + c.toNat / 0x1000 % 0x40,
              0x80 + c.toNat / 0x40 % 0x40, 0x80 + c.toNat % 0x40] = c.toNat from by
            simp only [decodePoint]
            rw [if_pos (by simp [isContByte]; omega)]
            omega]
          rw [Char.ofNat_toNat]
        rw [show utf8Bytes c = [0xF0 + c.toNat / 0x40000, 0x80 + c.toNat / 0x1000 % 0x40,
            0x80 + c.toNat / 0x40 % 0x40, 0x80 + c.toNat % 0x40] from by
          unfold utf8Bytes
          rw [if_neg h1, if_neg h2, if_neg h3]]
        show feedStep (feedStep (feedStep (feedStep ([], []) _) _) _) _ = ([c], [])
        rw [show feedStep ([], []) (0xF0 + c.toNat / 0x40000)
            = ([], [0xF0 + c.toNat / 0x40000]) from by simp [feedStep, e1]]
        rw [show feedStep (([] : List Char), [0xF0 + c.toNat / 0x40000])
            (0x80 + c.toNat / 0x1000 % 0x40)
            = ([], [0xF0 + c.toNat / 0x40000, 0x80 + c.toNat / 0x1000 % 0x40]) from by simp [feedStep, e2]]
        rw [show feedStep (([] : List Char), [0xF0 + c.toNat / 0x40000,
            0x80 + c.toNat / 0x1000 % 0x40]) (0x80 + c.toNat / 0x40 % 0x40)
            = ([], [0xF0 + c.toNat / 0x40000, 0x80 + c.toNat / 0x1000 % 0x40,
                0x80 + c.toNat / 0x40 % 0x40]) from by simp [feedStep, e3]]
        simp [feedStep, e4]

/-- Decoding the UTF-8 encoding of a whole string (in any chunking — here
as one feed) emits exactly that string with an empty final state, so the
final flush adds nothing. -/
theorem feedChunk_utf8Encode : ∀ s : Str, feedChunk [] (utf8Encode s) = (s, []) := by
  intro s
  induction s with
  | nil => rfl
  | cons c s ih =>
    rw [show utf8Encode (c :: s) = utf8Bytes c ++ utf8Encode s from by
      unfold utf8Encode
      simp]
    rw [feedChunk_append, feedChunk_utf8Bytes c]
    simp [ih]

/-- C1: frame reassembly is chunk-split invariant.  For every string `s`
and every partition of its UTF-8 bytes into chunks (splits may fall inside
the `"\n\n"` delimiter or inside a multi-byte character), the read loop
produces the same ordered candidate list — and hence, for any JSON parser,
the same ordered `{type, data}` frame list — as feeding the whole body as
one chunk. -/
theorem c1_chunk_split_invariant :
    ∀ {J : Type} (jparse : Str → Option J) (jtype : J → Option Str)
      (s : Str) (chunks : List (List Nat)),
      chunks.flatten = utf8Encode s →
      processChunks chunks = processChunks [utf8Encode s] ∧
      streamFrames jparse jtype chunks = streamFrames jparse jtype [utf8Encode s] := by
  intro J jparse jtype s chunks h
  have key : ∀ ch : List (List Nat), ch.flatten = utf8Encode s →
      processChunks ch = (splitNN s).dropLast := by
    intro ch hch
    rw [processChunks_flatten, hch, feedChunk_utf8Encode]
    simp [flushDec]
  have h12 := (key chunks h).trans (key [utf8Encode s] (by simp)).symm
  exact ⟨h12, by unfold streamFrames; rw [h12]⟩

/-- C1 witness: the witness chunking splits the body after byte 7 — in the
middle of the 3-byte `ა` — yet yields the same candidates and frames as
the unsplit body. -/
theorem c1_witness :
    ([(utf8Encode c1body).take 7, (utf8Encode c1body).drop 7] : List (List Nat)).flatten
        = utf8Encode c1body ∧
    processChunks [(utf8Encode c1body).take 7, (utf8Encode c1body).drop 7]
      = processChunks [utf8Encode c1body] ∧
    streamFrames (fun s => some s) (fun _ => none)
        [(utf8Encode c1body).take 7, (utf8Encode c1body).drop 7]
      = streamFrames (fun s => some s) (fun _ => none) [utf8Encode c1body] :=
  ⟨by decide,
   (c1_chunk_split_invariant (fun s => some s) (fun _ => none) c1body _ (by decide)).1,
   (c1_chunk_split_invariant (fun s => some s) (fun _ => none) c1body _ (by decide)).2⟩

end Scoop
